import Mathlib

/-!
Verification of the x402 developer CLI payment core against its
natural-language specification.

The embedding follows the Rust sources:

* `src/x402/test.rs`   — the resource-client payment flow (`test_payment_flow`):
  probe, decode of the `PAYMENT-REQUIRED` header, facilitator verify and
  settle calls, and the retried request carrying `PAYMENT-SIGNATURE`.
* `src/x402/mod.rs`    — the compiled, simpler `test_payment_flow` revision
  with the three-way probe branch (2xx / 402 / other).
* `src/x402/facilitator.rs` — the minimal facilitator transport
  (`handle_connection`), which answers canned JSON from the first request
  line only.

Rust strings are modelled as lists of Unicode scalar values (`List Nat`),
byte buffers as `List Nat` with values below 256.  The wire codec layers
(standard padded base64 as in the `base64` crate's `STANDARD` engine, UTF-8,
and compact JSON as produced and accepted by `serde_json`) are implemented
executably and verified.  JSON numbers are modelled as integers only; the
program's data never carries fractional numbers, and a fractional literal is
a failure of the same error kind in both the model and `serde_json` for the
shapes decoded here.
-/

/-- A Rust `String`: its sequence of Unicode scalar values. -/
abbrev RStr := List Nat

/-- Scalar values of a Lean string literal, used to write concrete strings. -/
def codes (s : String) : RStr := s.toList.map Char.toNat

/-- A valid Unicode scalar value (what a Rust `char` can hold). -/
def IsScalar (u : Nat) : Prop := (u < 55296 ∨ 57344 ≤ u) ∧ u < 1114112

instance (u : Nat) : Decidable (IsScalar u) := by
  unfold IsScalar; infer_instance

/-- A well-formed Rust string: every element is a scalar value. -/
def StrWF (s : RStr) : Prop := ∀ u ∈ s, IsScalar u

instance (s : RStr) : Decidable (StrWF s) := by
  unfold StrWF; infer_instance

/-! ## Base64 (standard alphabet, padded)

Model of the `base64` crate's `general_purpose::STANDARD` engine as used in
`test.rs` (`Engine.encode` / `Engine.decode`): the standard alphabet with
mandatory canonical padding and rejection of non-zero trailing bits. -/

/-- Codepoint of the base64 character for a sextet (0‥63). -/
def b64CharOf (n : Nat) : Nat :=
  if n < 26 then 65 + n
  else if n < 52 then 97 + (n - 26)
  else if n < 62 then 48 + (n - 52)
  else if n = 62 then 43
  else 47

/-- Sextet of a base64 alphabet codepoint, `none` off the alphabet. -/
def b64ValOf (c : Nat) : Option Nat :=
  if 65 ≤ c ∧ c ≤ 90 then some (c - 65)
  else if 97 ≤ c ∧ c ≤ 122 then some (26 + (c - 97))
  else if 48 ≤ c ∧ c ≤ 57 then some (52 + (c - 48))
  else if c = 43 then some 62
  else if c = 47 then some 63
  else none

/-- Encode bytes in three-byte chunks into base64 characters with padding. -/
def b64EncodeChunks : List Nat → RStr
  | [] => []
  | [a] => [b64CharOf (a / 4), b64CharOf (a % 4 * 16), 61, 61]
  | [a, b] => [b64CharOf (a / 4), b64CharOf (a % 4 * 16 + b / 16), b64CharOf (b % 16 * 4), 61]
  | a :: b :: c :: rest =>
      b64CharOf (a / 4) :: b64CharOf (a % 4 * 16 + b / 16) ::
      b64CharOf (b % 16 * 4 + c / 64) :: b64CharOf (c % 64) :: b64EncodeChunks rest

/-- Standard padded base64 encoding of a byte sequence. -/
def base64Encode (bs : List Nat) : RStr := b64EncodeChunks bs

/-- Decode four-character groups; padding is only accepted in the final
group, and non-zero trailing bits are rejected, as the `STANDARD` engine
does. -/
def b64DecodeQuads : RStr → Option (List Nat)
  | [] => some []
  | c1 :: c2 :: c3 :: c4 :: rest =>
    match b64ValOf c1, b64ValOf c2 with
    | some v1, some v2 =>
      if c4 = 61 then
        if rest = [] then
          if c3 = 61 then
            if v2 % 16 = 0 then some [v1 * 4 + v2 / 16] else none
          else
            match b64ValOf c3 with
            | some v3 =>
                if v3 % 4 = 0 then some [v1 * 4 + v2 / 16, v2 % 16 * 16 + v3 / 4] else none
            | none => none
        else none
      else
        match b64ValOf c3, b64ValOf c4 with
        | some v3, some v4 =>
            (b64DecodeQuads rest).map
              (fun bs => (v1 * 4 + v2 / 16) :: (v2 % 16 * 16 + v3 / 4) :: (v3 % 4 * 64 + v4) :: bs)
        | _, _ => none
    | _, _ => none
  | _ => none

/-- Standard padded base64 decoding, `none` on any malformed input. -/
def base64Decode (s : RStr) : Option (List Nat) := b64DecodeQuads s

/-! ## UTF-8

Model of `String::from_utf8` (decoding, `test.rs` line 97) and of the UTF-8
byte sequence underlying a Rust `String` (as consumed by
`serde_json::to_vec` and `Engine.encode`). -/

/-- UTF-8 bytes of one scalar value. -/
def utf8EncodeChar (u : Nat) : List Nat :=
  if u < 128 then [u]
  else if u < 2048 then [192 + u / 64, 128 + u % 64]
  else if u < 65536 then [224 + u / 4096, 128 + u / 64 % 64, 128 + u % 64]
  else [240 + u / 262144, 128 + u / 4096 % 64, 128 + u / 64 % 64, 128 + u % 64]

/-- UTF-8 bytes of a string. -/
def utf8Encode (s : RStr) : List Nat := (s.map utf8EncodeChar).flatten

/-- Whether a byte is a UTF-8 continuation byte. -/
def isCont (b : Nat) : Bool := 128 ≤ b && b < 192

/-- Take one continuation byte, yielding its six payload bits. -/
def takeCont : List Nat → Option (Nat × List Nat)
  | b :: r => if isCont b then some (b - 128, r) else none
  | [] => none

/-- Strict UTF-8 decoding: rejects stray continuation bytes, overlong
encodings, surrogate codepoints and values above U+10FFFF, exactly as
`String::from_utf8` does.  The fuel argument only drives the recursion;
every step consumes at least one byte, so the `utf8Decode` wrapper below
always supplies enough. -/
def utf8DecodeAux : Nat → List Nat → Option RStr
  | 0, _ => none
  | _ + 1, [] => some []
  | fuel + 1, b0 :: rest =>
    if b0 < 128 then (utf8DecodeAux fuel rest).map (fun s => b0 :: s)
    else if b0 < 192 then none
    else if b0 < 224 then
      match takeCont rest with
      | some (x1, r1) =>
        let u := (b0 - 192) * 64 + x1
        if 128 ≤ u then (utf8DecodeAux fuel r1).map (fun s => u :: s) else none
      | none => none
    else if b0 < 240 then
      match takeCont rest with
      | some (x1, r1) =>
        match takeCont r1 with
        | some (x2, r2) =>
          let u := (b0 - 224) * 4096 + x1 * 64 + x2
          if 2048 ≤ u ∧ (u < 55296 ∨ 57344 ≤ u) then
            (utf8DecodeAux fuel r2).map (fun s => u :: s)
          else none
        | none => none
      | none => none
    else if b0 < 248 then
      match takeCont rest with
      | some (x1, r1) =>
        match takeCont r1 with
        | some (x2, r2) =>
          match takeCont r2 with
          | some (x3, r3) =>
            let u := (b0 - 240) * 262144 + x1 * 4096 + x2 * 64 + x3
            if 65536 ≤ u ∧ u < 1114112 then
              (utf8DecodeAux fuel r3).map (fun s => u :: s)
            else none
          | none => none
        | none => none
      | none => none
    else none

/-- Model of `String::from_utf8`: decode a whole byte buffer. -/
def utf8Decode (bytes : List Nat) : Option RStr :=
  utf8DecodeAux (bytes.length + 1) bytes

/-! ## JSON

A JSON value model sufficient for the program's wire data, with the compact
printer of `serde_json::to_string` / `to_vec` and a whitespace-tolerant
recursive-descent reader for the accepting side of `serde_json::from_str`.
Numbers are restricted to integers (see the header note). -/

/-- JSON values.  Object fields keep their textual order. -/
inductive Json where
  | null
  | bool (b : Bool)
  | num (n : Int)
  | str (s : RStr)
  | arr (elems : List Json)
  | obj (fields : List (RStr × Json))
deriving Repr

/-- Lowercase hexadecimal digit character of a value below 16. -/
def hexDigit (d : Nat) : Nat := if d < 10 then 48 + d else 87 + d

/-- Escape one character as `serde_json` does: `\"`, `\\`, the five short
control escapes, `\u00XX` for the remaining control characters, and
everything else verbatim. -/
def escapeChar (u : Nat) : RStr :=
  if u = 34 then [92, 34]
  else if u = 92 then [92, 92]
  else if u = 8 then [92, 98]
  else if u = 9 then [92, 116]
  else if u = 10 then [92, 110]
  else if u = 12 then [92, 102]
  else if u = 13 then [92, 114]
  else if u < 32 then [92, 117, 48, 48, hexDigit (u / 16), hexDigit (u % 16)]
  else [u]

/-- Escape a whole string body. -/
def escapeString (s : RStr) : RStr := (s.map escapeChar).flatten

/-- Decimal digit characters of a natural number, most significant first. -/
def natDigits (n : Nat) : RStr :=
  if h : n < 10 then [48 + n]
  else natDigits (n / 10) ++ [48 + n % 10]
decreasing_by exact Nat.div_lt_self (by omega) (by omega)

/-- Printed form of an integer. -/
def intPrint (n : Int) : RStr :=
  if n < 0 then 45 :: natDigits (-n).toNat else natDigits n.toNat

mutual
/-- Compact JSON printing, exactly as `serde_json::to_string`: no
whitespace, fields and elements in order. -/
def jsonPrint : Json → RStr
  | .null => [110, 117, 108, 108]
  | .bool true => [116, 114, 117, 101]
  | .bool false => [102, 97, 108, 115, 101]
  | .num n => intPrint n
  | .str s => 34 :: escapeString s ++ [34]
  | .arr xs => 91 :: elemsPrint xs ++ [93]
  | .obj fs => 123 :: membersPrint fs ++ [125]

/-- Comma-separated printed elements of an array. -/
def elemsPrint : List Json → RStr
  | [] => []
  | [j] => jsonPrint j
  | j :: rest => jsonPrint j ++ 44 :: elemsPrint rest

/-- Comma-separated printed members of an object. -/
def membersPrint : List (RStr × Json) → RStr
  | [] => []
  | [(k, v)] => 34 :: escapeString k ++ [34, 58] ++ jsonPrint v
  | (k, v) :: rest => 34 :: escapeString k ++ [34, 58] ++ jsonPrint v ++ 44 :: membersPrint rest
end

/-- JSON whitespace. -/
def isWs (c : Nat) : Bool := c = 32 || c = 9 || c = 10 || c = 13

/-- Drop leading JSON whitespace. -/
def skipWs : RStr → RStr
  | [] => []
  | c :: rest => if isWs c then skipWs rest else c :: rest

/-- Whether a codepoint is a decimal digit. -/
def isDigit (c : Nat) : Bool := 48 ≤ c && c ≤ 57

/-- Value of a hexadecimal digit character (either case), `none` otherwise. -/
def hexVal (c : Nat) : Option Nat :=
  if 48 ≤ c ∧ c ≤ 57 then some (c - 48)
  else if 97 ≤ c ∧ c ≤ 102 then some (c - 87)
  else if 65 ≤ c ∧ c ≤ 70 then some (c - 55)
  else none

/-- Value of four hexadecimal digit characters. -/
def hex4 (a b c d : Nat) : Option Nat :=
  match hexVal a, hexVal b, hexVal c, hexVal d with
  | some x, some y, some z, some w => some (x * 4096 + y * 256 + z * 16 + w)
  | _, _, _, _ => none

/-- Read four hexadecimal digit characters. -/
def readHex4 : RStr → Option (Nat × RStr)
  | a :: b :: c :: d :: r => (hex4 a b c d).map (fun v => (v, r))
  | _ => none

/-- Read the low half of a surrogate pair: a literal `\uXXXX` escape whose
value is a low surrogate, combined with the high half `v`. -/
def readLowSurrogate (v : Nat) : RStr → Option (Nat × RStr)
  | 92 :: 117 :: r2 =>
    match readHex4 r2 with
    | some (w, r3) =>
      if 56320 ≤ w ∧ w < 57344 then
        some (65536 + (v - 55296) * 1024 + (w - 56320), r3)
      else none
    | none => none
  | _ => none

/-- Read one escape sequence after the backslash, as `serde_json` does:
the named single-character escapes and `\uXXXX`, with surrogate pairs
combined and lone surrogates rejected. -/
def readEscape : RStr → Option (Nat × RStr)
  | [] => none
  | e :: rest =>
    if e = 34 then some (34, rest)
    else if e = 92 then some (92, rest)
    else if e = 47 then some (47, rest)
    else if e = 98 then some (8, rest)
    else if e = 102 then some (12, rest)
    else if e = 110 then some (10, rest)
    else if e = 114 then some (13, rest)
    else if e = 116 then some (9, rest)
    else if e = 117 then
      match readHex4 rest with
      | some (v, r1) =>
        if v < 55296 ∨ 57344 ≤ v then some (v, r1)
        else if v < 56320 then readLowSurrogate v r1
        else none
      | none => none
    else none

/-- Read a string body up to its closing quote, handling the JSON escape
sequences and rejecting raw control characters, as `serde_json` does.
Returns the decoded body and the remaining input.  Fuel drives the
recursion; each step consumes at least one input character. -/
def parseStringBody : Nat → RStr → Option (RStr × RStr)
  | 0, _ => none
  | _ + 1, [] => none
  | fuel + 1, c :: rest =>
    if c = 34 then some ([], rest)
    else if c = 92 then
      match readEscape rest with
      | some (u, r) => (parseStringBody fuel r).map (fun p => (u :: p.1, p.2))
      | none => none
    else if c < 32 then none
    else (parseStringBody fuel rest).map (fun p => (c :: p.1, p.2))

/-- Read a maximal run of decimal digits, accumulating their value. -/
def parseDigits (acc : Nat) : RStr → Nat × RStr
  | [] => (acc, [])
  | c :: rest =>
    if isDigit c then parseDigits (acc * 10 + (c - 48)) rest else (acc, c :: rest)

/-- Whether the input begins with a decimal digit. -/
def headIsDigit : RStr → Bool
  | c :: _ => isDigit c
  | [] => false

/-- Read an unsigned JSON integer: a single `0`, or a nonzero leading digit
followed by more digits (leading zeros are a syntax error in JSON). -/
def parseNatBody : RStr → Option (Nat × RStr)
  | [] => none
  | c :: rest =>
    if isDigit c then
      if c = 48 then
        if headIsDigit rest then none else some (0, rest)
      else some (parseDigits (c - 48) rest)
    else none

/-- Read a JSON integer with optional leading minus. -/
def parseIntBody : RStr → Option (Int × RStr)
  | [] => none
  | c :: rest =>
    if c = 45 then (parseNatBody rest).map (fun p => (-(p.1 : Int), p.2))
    else (parseNatBody (c :: rest)).map (fun p => ((p.1 : Int), p.2))

/-- Whether the pattern begins the list. -/
def startsWithSeq : RStr → RStr → Bool
  | [], _ => true
  | _ :: _, [] => false
  | p :: ps, x :: xs => p == x && startsWithSeq ps xs

/-- Consume an expected literal token from the head of the input. -/
def dropToken (tok l : RStr) : Option RStr :=
  if startsWithSeq tok l then some (l.drop tok.length) else none

mutual
/-- Read one JSON value from the head of the input (callers skip leading
whitespace first).  The fuel argument only bounds nesting and element
recursion; `jsonParse` supplies enough for any input. -/
def parseValue : Nat → RStr → Option (Json × RStr)
  | 0, _ => none
  | fuel + 1, l =>
    match l with
    | [] => none
    | c :: rest =>
      if c = 110 then
        match dropToken [117, 108, 108] rest with
        | some r => some (.null, r)
        | none => none
      else if c = 116 then
        match dropToken [114, 117, 101] rest with
        | some r => some (.bool true, r)
        | none => none
      else if c = 102 then
        match dropToken [97, 108, 115, 101] rest with
        | some r => some (.bool false, r)
        | none => none
      else if c = 34 then
        (parseStringBody fuel rest).map (fun p => (.str p.1, p.2))
      else if c = 45 || isDigit c then
        (parseIntBody (c :: rest)).map (fun p => (.num p.1, p.2))
      else if c = 91 then parseArrTail fuel rest
      else if c = 123 then parseObjTail fuel rest
      else none

/-- Read the remainder of an array after `[`. -/
def parseArrTail : Nat → RStr → Option (Json × RStr)
  | 0, _ => none
  | fuel + 1, l =>
    match skipWs l with
    | [] => none
    | c :: r =>
      if c = 93 then some (.arr [], r)
      else (parseElems fuel (c :: r)).map (fun p => (.arr p.1, p.2))

/-- Read one or more comma-separated array elements and the closing `]`. -/
def parseElems : Nat → RStr → Option (List Json × RStr)
  | 0, _ => none
  | fuel + 1, l =>
    match parseValue fuel l with
    | none => none
    | some (j, r) =>
      match skipWs r with
      | [] => none
      | c :: r2 =>
        if c = 44 then
          match parseElems fuel (skipWs r2) with
          | some (xs, r3) => some (j :: xs, r3)
          | none => none
        else if c = 93 then some ([j], r2)
        else none

/-- Read the remainder of an object after the opening brace. -/
def parseObjTail : Nat → RStr → Option (Json × RStr)
  | 0, _ => none
  | fuel + 1, l =>
    match skipWs l with
    | [] => none
    | c :: r =>
      if c = 125 then some (.obj [], r)
      else (parseMembers fuel (c :: r)).map (fun p => (.obj p.1, p.2))

/-- Read one or more comma-separated object members and the closing brace. -/
def parseMembers : Nat → RStr → Option (List (RStr × Json) × RStr)
  | 0, _ => none
  | fuel + 1, l =>
    match l with
    | c :: r =>
      if c ≠ 34 then none else
      match parseStringBody fuel r with
      | none => none
      | some (k, r1) =>
        match skipWs r1 with
        | [] => none
        | c2 :: r2 =>
          if c2 ≠ 58 then none else
          match parseValue fuel (skipWs r2) with
          | none => none
          | some (v, r3) =>
            match skipWs r3 with
            | [] => none
            | c3 :: r4 =>
              if c3 = 44 then
                match parseMembers fuel (skipWs r4) with
                | some (fs, r5) => some ((k, v) :: fs, r5)
                | none => none
              else if c3 = 125 then some ([(k, v)], r4)
              else none
    | [] => none
end

/-- Parse a complete JSON document: one value, surrounded by optional
whitespace, with nothing after it — the accepting side of
`serde_json::from_str` factored through a value tree, as `serde_json`
itself factors struct decoding through its map access. -/
def jsonParse (s : RStr) : Option Json :=
  match parseValue (2 * s.length + 2) (skipWs s) with
  | some (j, r) => if skipWs r = [] then some j else none
  | none => none

/-! ## Data model

The wire structures of `src/x402/test.rs` (lines 13–61). -/

/-- Scheme-specific flags (`Extra`, `test.rs` lines 31–35). -/
structure Extra where
  sponsored : Option Bool
deriving DecidableEq, Repr

/-- Payment terms (`PaymentRequirements`, `test.rs` lines 20–29).  The
`extra` field is `#[serde(flatten)]`ed into the object. -/
structure PaymentRequirements where
  scheme : RStr
  network : RStr
  amount : RStr
  asset : RStr
  payTo : RStr
  extra : Option Extra
deriving DecidableEq, Repr

/-- Scheme-specific evidence (`Payload`, `test.rs` lines 37–41). -/
structure Payload where
  transaction : RStr
  senderAuthenticator : RStr
deriving DecidableEq, Repr

/-- Client payment proof (`PaymentPayload`, `test.rs` lines 13–18). -/
structure PaymentPayload where
  x402Version : Nat
  accepted : PaymentRequirements
  payload : Payload
deriving DecidableEq, Repr

/-- Facilitator verify response (`VerifyResponse`, `test.rs` lines 43–48). -/
structure VerifyResponse where
  isValid : Bool
  invalidReason : Option RStr
  payer : Option RStr
deriving DecidableEq, Repr

/-- Facilitator settle response (`SettleResponse`, `test.rs` lines 50–56). -/
structure SettleResponse where
  success : Bool
  transaction : RStr
  network : RStr
  payer : RStr
deriving DecidableEq, Repr

/-! ## Serde mappings

Serialization in declared field order with the flattened `extra` last, and
deserialization with serde's derive semantics: declared fields required
exactly once, unknown fields fed to the flattened struct (which ignores
what it does not know), `Option` fields defaulting to `None` when absent,
duplicate fields rejected.  A flattened `Option<Extra>` deserializes
through serde's `FlatMapDeserializer`, whose `deserialize_option`
unconditionally visits `Some`; absent extra fields therefore come back as
`Some(Extra { sponsored: None })`, not as `None`. -/

/-- JSON form of an `Option<bool>` field value. -/
def optBoolToJson : Option Bool → Json
  | none => .null
  | some b => .bool b

/-- Fields contributed by the flattened `extra`. -/
def extraFieldsToJson : Option Extra → List (RStr × Json)
  | none => []
  | some e => [(codes "sponsored", optBoolToJson e.sponsored)]

/-- Serialization of `PaymentRequirements` by its derived `Serialize`. -/
def reqToJson (r : PaymentRequirements) : Json :=
  .obj ([(codes "scheme", .str r.scheme), (codes "network", .str r.network),
         (codes "amount", .str r.amount), (codes "asset", .str r.asset),
         (codes "payTo", .str r.payTo)] ++ extraFieldsToJson r.extra)

/-- Serialization of `Payload` by its derived `Serialize`. -/
def payloadToJson (p : Payload) : Json :=
  .obj [(codes "transaction", .str p.transaction),
        (codes "senderAuthenticator", .str p.senderAuthenticator)]

/-- Serialization of `PaymentPayload` by its derived `Serialize`. -/
def paymentPayloadToJson (p : PaymentPayload) : Json :=
  .obj [(codes "x402Version", .num p.x402Version),
        (codes "accepted", reqToJson p.accepted),
        (codes "payload", payloadToJson p.payload)]

/-- Values of all fields named `k`, in order. -/
def fieldVals (k : RStr) (fs : List (RStr × Json)) : List Json :=
  (fs.filter (fun kv => kv.1 == k)).map (fun kv => kv.2)

/-- The value of a field required to occur exactly once (serde rejects both
a missing and a duplicated declared field). -/
def getUnique (k : RStr) (fs : List (RStr × Json)) : Option Json :=
  match fieldVals k fs with
  | [j] => some j
  | _ => none

/-- A declared `String` field: present exactly once, with a string value. -/
def getUniqueStr (k : RStr) (fs : List (RStr × Json)) : Option RStr :=
  match fieldVals k fs with
  | [.str s] => some s
  | _ => none

/-- An `Option<String>` field: absent or `null` is `None`, a string is
`Some`, anything else (wrong type, duplicate) is an error. -/
def getOptStr (k : RStr) (fs : List (RStr × Json)) : Option (Option RStr) :=
  match fieldVals k fs with
  | [] => some none
  | [.null] => some none
  | [.str s] => some (some s)
  | _ => none

/-- The declared (non-flattened) keys of `PaymentRequirements`. -/
def reqKnownKeys : List RStr :=
  [codes "scheme", codes "network", codes "amount", codes "asset", codes "payTo"]

/-- The `sponsored` field of `Extra` read from the flattened remainder:
`#[serde(default)] Option<bool>`. -/
def sponsoredFromFields (fs : List (RStr × Json)) : Option (Option Bool) :=
  match fieldVals (codes "sponsored") fs with
  | [] => some none
  | [.null] => some none
  | [.bool b] => some (some b)
  | _ => none

/-- Deserialization of `PaymentRequirements` (derived `Deserialize` with
the flattened `Option<Extra>`; see the section comment on why `extra`
always comes back as `Some`). -/
def reqFromJson : Json → Option PaymentRequirements
  | .obj fs =>
    match getUniqueStr (codes "scheme") fs, getUniqueStr (codes "network") fs,
          getUniqueStr (codes "amount") fs, getUniqueStr (codes "asset") fs,
          getUniqueStr (codes "payTo") fs with
    | some scheme, some network, some amount, some asset, some payTo =>
      match sponsoredFromFields (fs.filter (fun kv => !(reqKnownKeys.contains kv.1))) with
      | some sp => some ⟨scheme, network, amount, asset, payTo, some ⟨sp⟩⟩
      | none => none
    | _, _, _, _, _ => none
  | _ => none

/-- Deserialization of `Payload` with derive semantics. -/
def payloadFromJson : Json → Option Payload
  | .obj fs =>
    match getUniqueStr (codes "transaction") fs,
          getUniqueStr (codes "senderAuthenticator") fs with
    | some t, some sa => some ⟨t, sa⟩
    | _, _ => none
  | _ => none

/-- A `u32` field value: an integer in range. -/
def u32FromJson : Json → Option Nat
  | .num n => if 0 ≤ n ∧ n < 4294967296 then some n.toNat else none
  | _ => none

/-- Deserialization of `PaymentPayload` with derive semantics
(`x402Version` is a `u32`, so its number must lie below `2^32`). -/
def paymentPayloadFromJson : Json → Option PaymentPayload
  | .obj fs => do
    let jv ← getUnique (codes "x402Version") fs
    let n ← u32FromJson jv
    let ja ← getUnique (codes "accepted") fs
    let acc ← reqFromJson ja
    let jp ← getUnique (codes "payload") fs
    let pl ← payloadFromJson jp
    some ⟨n, acc, pl⟩
  | _ => none

/-- Deserialization of `VerifyResponse` with derive semantics. -/
def verifyRespFromJson : Json → Option VerifyResponse
  | .obj fs => do
    let jv ← getUnique (codes "isValid") fs
    let b ← match jv with | .bool b => some b | _ => none
    let ir ← getOptStr (codes "invalidReason") fs
    let py ← getOptStr (codes "payer") fs
    some ⟨b, ir, py⟩
  | _ => none

/-- Deserialization of `SettleResponse` with derive semantics. -/
def settleRespFromJson : Json → Option SettleResponse
  | .obj fs => do
    let js ← getUnique (codes "success") fs
    let b ← match js with | .bool b => some b | _ => none
    let t ← getUniqueStr (codes "transaction") fs
    let nw ← getUniqueStr (codes "network") fs
    let py ← getUniqueStr (codes "payer") fs
    some ⟨b, t, nw, py⟩
  | _ => none

mutual
/-- Well-formed JSON: every string holds scalar values. -/
def JsonWF : Json → Prop
  | .null => True
  | .bool _ => True
  | .num _ => True
  | .str s => StrWF s
  | .arr xs => JsonListWF xs
  | .obj fs => JsonFieldsWF fs

/-- Well-formedness of element lists. -/
def JsonListWF : List Json → Prop
  | [] => True
  | x :: xs => JsonWF x ∧ JsonListWF xs

/-- Well-formedness of field lists. -/
def JsonFieldsWF : List (RStr × Json) → Prop
  | [] => True
  | (k, v) :: fs => StrWF k ∧ JsonWF v ∧ JsonFieldsWF fs
end

/-! ## PaymentCodec -/

/-- The three failure kinds of header decoding (spec §4.1). -/
inductive DecodeError where
  | malformedHeader
  | invalidUtf8
  | schemaError
deriving DecidableEq, Repr

/-- Modelled from the spec: `EncodeRequirementsHeader` — the resource
server side that produces the `PAYMENT-REQUIRED` header is not part of this
repository.  Per §4.1 it JSON-serializes the `PaymentRequirements` and
base64-encodes (standard alphabet, padded) the UTF-8 bytes. -/
def encodeRequirementsHeader (r : PaymentRequirements) : RStr :=
  base64Encode (utf8Encode (jsonPrint (reqToJson r)))

/-- Decoding of the `PAYMENT-REQUIRED` header value (`test.rs` lines
94–100): base64 decode, UTF-8 validation, then `serde_json` parsing into
`PaymentRequirements`.  `serde_json::from_str` reports JSON syntax and
shape mismatches through the one error kind of `test.rs` line 99. -/
def decodeRequirementsHeader (h : RStr) : Except DecodeError PaymentRequirements :=
  match base64Decode h with
  | none => .error .malformedHeader
  | some bytes =>
    match utf8Decode bytes with
    | none => .error .invalidUtf8
    | some s =>
      match jsonParse s with
      | none => .error .schemaError
      | some j =>
        match reqFromJson j with
        | some r => .ok r
        | none => .error .schemaError

/-- Encoding of the `PAYMENT-SIGNATURE` header value (`test.rs` lines
190–192): `serde_json::to_vec` of the `PaymentPayload`, then
`Engine.encode`. -/
def encodePayloadHeader (p : PaymentPayload) : RStr :=
  base64Encode (utf8Encode (jsonPrint (paymentPayloadToJson p)))

/-- Modelled from the spec: the decoding inverse for `PaymentPayload`
headers (§8 round-trip property; the resource-server side that would read
`PAYMENT-SIGNATURE` is not part of this repository).  It mirrors
`decodeRequirementsHeader` with the payload shape. -/
def decodePayloadHeader (h : RStr) : Except DecodeError PaymentPayload :=
  match base64Decode h with
  | none => .error .malformedHeader
  | some bytes =>
    match utf8Decode bytes with
    | none => .error .invalidUtf8
    | some s =>
      match jsonParse s with
      | none => .error .schemaError
      | some j =>
        match paymentPayloadFromJson j with
        | some p => .ok p
        | none => .error .schemaError

/-- What decoding makes of an absent `extra`: serde's flattened
`Option<Extra>` always comes back as `Some`. -/
def extraNormalize : Option Extra → Option Extra
  | none => some ⟨none⟩
  | some e => some e

/-- The requirements value the decoder returns for an encoded `r`. -/
def reqNormalize (r : PaymentRequirements) : PaymentRequirements :=
  { r with extra := extraNormalize r.extra }

/-- The payload value the decoder returns for an encoded `p`. -/
def paymentPayloadNormalize (p : PaymentPayload) : PaymentPayload :=
  { p with accepted := reqNormalize p.accepted }

/-- Well-formedness of requirements: Rust strings hold scalar values. -/
def ReqWF (r : PaymentRequirements) : Prop :=
  StrWF r.scheme ∧ StrWF r.network ∧ StrWF r.amount ∧ StrWF r.asset ∧ StrWF r.payTo

instance (r : PaymentRequirements) : Decidable (ReqWF r) := by
  unfold ReqWF; infer_instance

/-- Well-formedness of a payment payload: Rust strings hold scalar values
and the version field fits a `u32`. -/
def PaymentPayloadWF (p : PaymentPayload) : Prop :=
  ReqWF p.accepted ∧ StrWF p.payload.transaction ∧
  StrWF p.payload.senderAuthenticator ∧ p.x402Version < 4294967296

instance (p : PaymentPayload) : Decidable (PaymentPayloadWF p) := by
  unfold PaymentPayloadWF; infer_instance

/-! ## HTTP modelling for the client flow

Responses are supplied as data: each network step of the linear flow either
fails at transport (`none`, reqwest's `send()` error, reported through
`context(..)?`) or yields a status, headers and a body.  The flow's output
records its outcome and the full ordered trace of attempted requests. -/

/-- An HTTP response as the flow observes it. -/
structure HttpResp where
  status : Nat
  headers : List (RStr × List Nat)
  body : List Nat
deriving DecidableEq, Repr

/-- ASCII lowercase folding of a codepoint. -/
def asciiLower (c : Nat) : Nat := if 65 ≤ c ∧ c ≤ 90 then c + 32 else c

/-- Case-insensitive equality of header names. -/
def headerNameEq (a b : RStr) : Bool := a.map asciiLower == b.map asciiLower

/-- First header with the given name, case-insensitively, as
`HeaderMap::get`. -/
def headerGet (name : RStr) (hs : List (RStr × List Nat)) : Option (List Nat) :=
  (hs.find? (fun kv => headerNameEq kv.1 name)).map (fun kv => kv.2)

/-- Model of `HeaderValue::to_str` (`test.rs` line 93): succeeds only when
every byte is visible ASCII or tab, and then the string is those bytes. -/
def headerToStr (v : List Nat) : Option RStr :=
  if v.all (fun b => (32 ≤ b && b < 127) || b == 9) then some v else none

/-- Model of `StatusCode::is_success`: the 2xx range. -/
def is2xx (s : Nat) : Bool := 200 ≤ s && s < 300

/-- The responses the environment returns to the four network calls of
`test.rs`'s `test_payment_flow`; `none` is a transport failure. -/
structure FlowEnv where
  probe : Option HttpResp
  verify : Option HttpResp
  settle : Option HttpResp
  retry : Option HttpResp
deriving Repr

/-- A request the flow sends.  A facilitator POST body is the
`json!({"paymentPayload":…, "paymentRequirements":…})` document, which is a
function of the payload and requirements recorded here. -/
inductive Request where
  | get (url : RStr) (headers : List (RStr × RStr))
  | post (url : RStr) (payload : PaymentPayload) (reqs : PaymentRequirements)
deriving DecidableEq, Repr

/-- How a run of `test.rs`'s `test_payment_flow` ends.  Constructors mirror
the function's exit points in order. -/
inductive FlowOutcome where
  | probeTransportError
  | non402 (status : Nat)
  | missingPaymentRequiredHeader
  | headerNotAscii
  | decodeFailed (e : DecodeError)
  | verifyTransportError
  | verifyHttpError (status : Nat)
  | verifyParseError
  | paymentInvalid (reason : RStr)
  | settleTransportError
  | settleHttpError (status : Nat)
  | settleParseError
  | settlementFailed
  | retryTransportError
  | done (finalStatus : Nat) (transaction : RStr) (payer : RStr)
deriving DecidableEq, Repr

/-- Outcome plus the ordered trace of requests the flow attempted. -/
structure FlowResult where
  outcome : FlowOutcome
  trace : List Request
deriving DecidableEq, Repr

/-- The compiled-in facilitator base URL (`test.rs` line 11). -/
def facilitatorUrl : RStr := codes "http://localhost:3001"

/-- The verify endpoint URL. -/
def verifyUrl : RStr := facilitatorUrl ++ codes "/verify"

/-- The settle endpoint URL. -/
def settleUrl : RStr := facilitatorUrl ++ codes "/settle"

/-- The payload built in `test.rs` lines 110–124: fixed 64-byte zero blobs,
base64-encoded, under protocol version 2, accepting the decoded
requirements verbatim.  The random `transaction_hash` of lines 110–111 is
only printed and reaches no request or result. -/
def buildPaymentPayload (reqs : PaymentRequirements) : PaymentPayload :=
  { x402Version := 2
    accepted := reqs
    payload :=
      { transaction := base64Encode (List.replicate 64 0)
        senderAuthenticator := base64Encode (List.replicate 64 0) } }

/-- The body sent to `/verify` and re-sent verbatim to `/settle`
(`test.rs` lines 130–133 and 162–168 reuse the one `verify_request`
value). -/
def verifyRequestBody (p : PaymentPayload) (reqs : PaymentRequirements) : Request :=
  .post verifyUrl p reqs

/-- The rich payment flow of `src/x402/test.rs` (`test_payment_flow`,
lines 63–216), as a function of the environment's responses.  Every branch
follows the source in order: non-402 probe ends the run; the
`PAYMENT-REQUIRED` header is required, converted with `to_str`, and decoded
(base64, UTF-8, `serde_json`); verify must answer 2xx with a parseable body
and `isValid`; settle likewise with `success`; then the original request is
retried once carrying `PAYMENT-SIGNATURE`. -/
def testPaymentFlow (apiUrl : RStr) (_amount : Nat) (_randomHash : RStr)
    (env : FlowEnv) : FlowResult :=
  let probeReq : Request := .get apiUrl []
  match env.probe with
  | none => ⟨.probeTransportError, [probeReq]⟩
  | some pr =>
    if pr.status ≠ 402 then ⟨.non402 pr.status, [probeReq]⟩
    else
      match headerGet (codes "PAYMENT-REQUIRED") pr.headers with
      | none => ⟨.missingPaymentRequiredHeader, [probeReq]⟩
      | some hv =>
        match headerToStr hv with
        | none => ⟨.headerNotAscii, [probeReq]⟩
        | some hs =>
          match decodeRequirementsHeader hs with
          | .error e => ⟨.decodeFailed e, [probeReq]⟩
          | .ok reqs =>
            let payload := buildPaymentPayload reqs
            let verifyReq := verifyRequestBody payload reqs
            match env.verify with
            | none => ⟨.verifyTransportError, [probeReq, verifyReq]⟩
            | some vr =>
              if !is2xx vr.status then
                ⟨.verifyHttpError vr.status, [probeReq, verifyReq]⟩
              else
                match (utf8Decode vr.body).bind jsonParse |>.bind verifyRespFromJson with
                | none => ⟨.verifyParseError, [probeReq, verifyReq]⟩
                | some v =>
                  if !v.isValid then
                    ⟨.paymentInvalid (v.invalidReason.getD (codes "Unknown")),
                     [probeReq, verifyReq]⟩
                  else
                    let settleReq : Request := .post settleUrl payload reqs
                    match env.settle with
                    | none =>
                        ⟨.settleTransportError, [probeReq, verifyReq, settleReq]⟩
                    | some sr =>
                      if !is2xx sr.status then
                        ⟨.settleHttpError sr.status, [probeReq, verifyReq, settleReq]⟩
                      else
                        match (utf8Decode sr.body).bind jsonParse
                            |>.bind settleRespFromJson with
                        | none =>
                            ⟨.settleParseError, [probeReq, verifyReq, settleReq]⟩
                        | some st =>
                          if !st.success then
                            ⟨.settlementFailed, [probeReq, verifyReq, settleReq]⟩
                          else
                            let retryReq : Request :=
                              .get apiUrl
                                [(codes "PAYMENT-SIGNATURE", encodePayloadHeader payload)]
                            match env.retry with
                            | none =>
                                ⟨.retryTransportError,
                                 [probeReq, verifyReq, settleReq, retryReq]⟩
                            | some fr =>
                                ⟨.done fr.status st.transaction st.payer,
                                 [probeReq, verifyReq, settleReq, retryReq]⟩

/-! ## The compiled flow revision in `src/x402/mod.rs`

`mod.rs` does not declare `test.rs` as a module; the binary's
`handle_test` calls this simpler revision (`mod.rs` lines 352–428), which
distinguishes 2xx, 402 and other probe statuses, and on 402 re-issues the
request once with an `X-Payment-Token` header, calling no facilitator. -/

/-- Responses for the up-to-two requests of the `mod.rs` flow. -/
structure ModFlowEnv where
  probe : Option HttpResp
  second : Option HttpResp
deriving Repr

/-- How a run of the `mod.rs` flow ends.  `unexpectedStatus` is the
terminal else-branch of `mod.rs` lines 417–425 (“⚠ Unexpected status
code”); `unexpectedFinalStatus` the one of lines 408–416. -/
inductive ModOutcome where
  | probeTransportError
  | doneNoPayment
  | unexpectedStatus (status : Nat)
  | retryTransportError
  | completed (body : List Nat)
  | unexpectedFinalStatus (status : Nat)
deriving DecidableEq, Repr

/-- Outcome and request trace of the `mod.rs` flow. -/
structure ModFlowResult where
  outcome : ModOutcome
  trace : List Request
deriving DecidableEq, Repr

/-- The `mod.rs` `test_payment_flow` (lines 352–428): probe; 2xx is the
“no payment required” success; 402 re-issues the request with
`X-Payment-Token: test-token-123`; anything else stops at “Unexpected
status code”. -/
def modTestPaymentFlow (apiUrl : RStr) (_amount : Nat) (env : ModFlowEnv) :
    ModFlowResult :=
  let probeReq : Request := .get apiUrl []
  match env.probe with
  | none => ⟨.probeTransportError, [probeReq]⟩
  | some pr =>
    if is2xx pr.status then ⟨.doneNoPayment, [probeReq]⟩
    else if pr.status = 402 then
      let payReq : Request :=
        .get apiUrl [(codes "X-Payment-Token", codes "test-token-123")]
      match env.second with
      | none => ⟨.retryTransportError, [probeReq, payReq]⟩
      | some fr =>
        if is2xx fr.status then ⟨.completed fr.body, [probeReq, payReq]⟩
        else ⟨.unexpectedFinalStatus fr.status, [probeReq, payReq]⟩
    else ⟨.unexpectedStatus pr.status, [probeReq]⟩

/-! ## The minimal facilitator transport (`src/x402/facilitator.rs`)

`handle_connection` (lines 99–138) reads one line from the connection,
trims it, and answers one of three canned `HTTP/1.1 200 OK` JSON bodies
chosen from that line alone; the request body is never read. -/

/-- Drop leading and trailing whitespace (`str::trim`; ASCII whitespace
suffices for HTTP request lines). -/
def rstrTrim (s : RStr) : RStr :=
  ((s.dropWhile (fun c => isWs c)).reverse.dropWhile (fun c => isWs c)).reverse

/-- Response preamble shared by all three branches. -/
def httpOkJson (body : RStr) : RStr :=
  codes "HTTP/1.1 200 OK\r\nContent-Type: application/json\r\n\r\n" ++ body

/-- Body of the health branch, with the current timestamp substituted. -/
def healthBody (timestamp : RStr) : RStr :=
  codes "\x7b\"status\":\"healthy\",\"timestamp\":\"" ++ timestamp ++ codes "\"\x7d"

/-- Body answered to every POST. -/
def postBody (url : RStr) : RStr :=
  codes "\x7b\"message\":\"Payment facilitated\",\"status\":\"success\",\"url\":\"" ++
    url ++ codes "\"\x7d"

/-- Body of the fallback branch. -/
def defaultBody (url : RStr) : RStr :=
  codes "\x7b\"message\":\"Facilitator running\",\"url\":\"" ++ url ++ codes "\"\x7d"

/-- Model of `str::contains` with a string pattern: the pattern occurs as a
contiguous subsequence. -/
def strContains (pat : RStr) : RStr → Bool
  | [] => pat.isEmpty
  | x :: xs => startsWithSeq pat (x :: xs) || strContains pat xs

/-- The response `handle_connection` writes, as a function of the trimmed
first request line, the facilitator URL, and the clock (used only by the
health branch). -/
def handleConnection (requestLine url timestamp : RStr) : RStr :=
  let line := rstrTrim requestLine
  if strContains (codes "GET /health") line then httpOkJson (healthBody timestamp)
  else if strContains (codes "POST") line then httpOkJson (postBody url)
  else httpOkJson (defaultBody url)

/-- A whole connection input as its lines; `read_line` consumes only the
first. -/
def handleConnectionInput (input : List RStr) (url timestamp : RStr) : RStr :=
  handleConnection (input.headD []) url timestamp

/-- The facilitator's process state (`Facilitator` struct, lines 10–15;
the wallet is `Wallet::default()` and never read by the handler). -/
structure FacilitatorState where
  port : Nat
  url : RStr
  running : Bool
deriving DecidableEq, Repr

/-- `Facilitator::start` state: `url = "http://localhost:{port}"`, running. -/
def facilitatorStart (port : Nat) : FacilitatorState :=
  ⟨port, codes "http://localhost:" ++ natDigits port, true⟩

/-- One connection handled against the facilitator state.
`handle_connection` receives only the stream and `&url`: it can read or
write no other state, so the state component is returned unchanged —
exactly the source's signature. -/
def handleConnectionStep (f : FacilitatorState) (input : List RStr)
    (timestamp : RStr) : RStr × FacilitatorState :=
  (handleConnectionInput input f.url timestamp, f)

/-! ## The facilitator service's verify operation

The repository's transport answers canned JSON and contains no verify
adjudication logic, so the validation policy is modelled from the spec. -/

/-- Spec §3 `VerifyResult`. -/
structure VerifyResult where
  isValid : Bool
  invalidReason : Option RStr
deriving DecidableEq, Repr

/-- Whether `amount` parses as a non-negative integer in smallest units. -/
def amountIsNonNegInt (s : RStr) : Bool := !s.isEmpty && s.all (fun c => isDigit c)

/-- Modelled from the spec: the Facilitator Service's `POST /verify`
validation policy (§4.1, steps 1–4; the network-verification step is
stubbed to succeed as the spec allows for a minimal facilitator).  The
repository contains no implementation of this policy. -/
def verifyService (p : PaymentPayload) (r : PaymentRequirements) : VerifyResult :=
  if p.accepted ≠ r then ⟨false, some (codes "requirements-mismatch")⟩
  else if !amountIsNonNegInt r.amount then ⟨false, some (codes "invalid-amount")⟩
  else if p.payload.transaction.isEmpty || p.payload.senderAuthenticator.isEmpty then
    ⟨false, some (codes "malformed-payload")⟩
  else ⟨true, none⟩

/-- Modelled from the spec: a verify call against the facilitator state —
“idempotent and side-effect-free: it never moves funds” (§4.1), so the
state passes through untouched. -/
def verifyOp (f : FacilitatorState) (p : PaymentPayload)
    (r : PaymentRequirements) : VerifyResult × FacilitatorState :=
  (verifyService p r, f)

/-- Decidable equality for decode results, used to evaluate concrete
codec runs. -/
instance {ε α : Type} [DecidableEq ε] [DecidableEq α] : DecidableEq (Except ε α)
  | .ok a, .ok b => if h : a = b then .isTrue (by rw [h]) else .isFalse (by simp [h])
  | .error e, .error f => if h : e = f then .isTrue (by rw [h]) else .isFalse (by simp [h])
  | .ok _, .error _ => .isFalse (by simp)
  | .error _, .ok _ => .isFalse (by simp)

/-! ## Concrete sample data

Wire values used to evaluate the model on concrete runs (spec §8,
scenario 2: `\x7bscheme:"exact", network:"testnet", amount:"1000",
asset:"USDC", payTo:"0xabc"\x7d`, transaction `0xdead`, payer `0xpayer`). -/

/-- The spec's example payment terms. -/
def sampleRequirements : PaymentRequirements :=
  ⟨codes "exact", codes "testnet", codes "1000", codes "USDC", codes "0xabc", some ⟨none⟩⟩

/-- The same terms with the `extra` mapping absent. -/
def sampleRequirementsNoExtra : PaymentRequirements :=
  { sampleRequirements with extra := none }

/-- A 402 probe response advertising the sample terms. -/
def sampleProbeResp : HttpResp :=
  ⟨402, [(codes "PAYMENT-REQUIRED", encodeRequirementsHeader sampleRequirements)], []⟩

/-- A verify body accepting the payment. -/
def sampleVerifyOkBody : List Nat := codes "\x7b\"isValid\":true\x7d"

/-- A verify body rejecting the payment for insufficient funds. -/
def sampleVerifyInvalidBody : List Nat :=
  codes "\x7b\"isValid\":false,\"invalidReason\":\"insufficient-funds\"\x7d"

/-- A settle body reporting a completed settlement. -/
def sampleSettleOkBody : List Nat :=
  codes "\x7b\"success\":true,\"transaction\":\"0xdead\",\"network\":\"testnet\",\"payer\":\"0xpayer\"\x7d"

/-- The happy-path environment of spec §8 scenario 2. -/
def sampleEnv : FlowEnv :=
  ⟨some sampleProbeResp, some ⟨200, [], sampleVerifyOkBody⟩,
   some ⟨200, [], sampleSettleOkBody⟩, some ⟨200, [], []⟩⟩

/-- Scenario 3: verify answers `isValid = false`. -/
def sampleEnvInvalid : FlowEnv :=
  { sampleEnv with verify := some ⟨200, [], sampleVerifyInvalidBody⟩ }

/-- Scenario 4: the 402 response lacks the `PAYMENT-REQUIRED` header. -/
def sampleEnvNoHeader : FlowEnv :=
  { sampleEnv with probe := some ⟨402, [], []⟩ }

mutual
/-- Fuel ticks the value reader may spend on a printed value. -/
def fuelNeed : Json → Nat
  | .null => 1
  | .bool _ => 1
  | .num _ => 1
  | .str s => s.length + 2
  | .arr xs => 2 + fuelNeedElems xs
  | .obj fs => 2 + fuelNeedMembers fs

/-- Fuel ticks the element reader may spend on printed elements. -/
def fuelNeedElems : List Json → Nat
  | [] => 0
  | x :: xs => 1 + fuelNeed x + fuelNeedElems xs

/-- Fuel ticks the member reader may spend on printed members. -/
def fuelNeedMembers : List (RStr × Json) → Nat
  | [] => 0
  | (k, v) :: fs => 1 + (k.length + 1) + fuelNeed v + fuelNeedMembers fs
end

/-! # Theorems

First the codec layers (base64, UTF-8, JSON), then the claims about the
program. -/

/-- Decoding a base64 character of a sextet recovers the sextet. -/
theorem b64ValOf_b64CharOf {n : Nat} (h : n < 64) : b64ValOf (b64CharOf n) = some n := by
  interval_cases n <;> rfl

/-- Base64 characters are never the padding character. -/
theorem b64CharOf_ne61 {n : Nat} (h : n < 64) : b64CharOf n ≠ 61 := by
  interval_cases n <;> decide

/-- Quad-level base64 round trip on byte lists. -/
theorem b64_rt : ∀ bs : List Nat, (∀ b ∈ bs, b < 256) →
    b64DecodeQuads (b64EncodeChunks bs) = some bs
  | [], _ => rfl
  | [a], h => by
    have ha : a < 256 := h a (by simp)
    simp only [b64EncodeChunks, b64DecodeQuads]
    rw [b64ValOf_b64CharOf (by omega), b64ValOf_b64CharOf (by omega)]
    have h16 : a % 4 * 16 % 16 = 0 := by omega
    simp [h16]
    all_goals omega
  | [a, b], h => by
    have ha : a < 256 := h a (by simp)
    have hb : b < 256 := h b (by simp)
    simp only [b64EncodeChunks, b64DecodeQuads]
    rw [b64ValOf_b64CharOf (by omega), b64ValOf_b64CharOf (by omega)]
    have h3 : b64CharOf (b % 16 * 4) ≠ 61 := b64CharOf_ne61 (by omega)
    have h4 : b % 16 * 4 % 4 = 0 := by omega
    simp [h3, b64ValOf_b64CharOf (show b % 16 * 4 < 64 by omega), h4]
    all_goals omega
  | a :: b :: c :: rest, h => by
    have ha : a < 256 := h a (by simp)
    have hb : b < 256 := h b (by simp)
    have hc : c < 256 := h c (by simp)
    have ih := b64_rt rest (fun x hx => h x (by simp [hx]))
    show b64DecodeQuads
        (b64CharOf (a / 4) :: b64CharOf (a % 4 * 16 + b / 16) ::
         b64CharOf (b % 16 * 4 + c / 64) :: b64CharOf (c % 64) :: b64EncodeChunks rest) =
      some (a :: b :: c :: rest)
    simp only [b64DecodeQuads]
    rw [b64ValOf_b64CharOf (by omega), b64ValOf_b64CharOf (by omega)]
    have h4 : b64CharOf (c % 64) ≠ 61 := b64CharOf_ne61 (by omega)
    simp [h4, b64ValOf_b64CharOf (show b % 16 * 4 + c / 64 < 64 by omega),
          b64ValOf_b64CharOf (show c % 64 < 64 by omega), ih]
    refine ⟨by omega, by omega, by omega⟩

/-- Base64 round trip: decoding an encoding recovers the bytes. -/
theorem base64_roundtrip (bs : List Nat) (h : ∀ b ∈ bs, b < 256) :
    base64Decode (base64Encode bs) = some bs := b64_rt bs h

/-- Continuation bytes built from six payload bits are taken back apart. -/
theorem takeCont_mod (y : Nat) (r : List Nat) :
    takeCont ((128 + y % 64) :: r) = some (y % 64, r) := by
  have hc : isCont (128 + y % 64) = true := by
    simp [isCont]; omega
  simp [takeCont, hc]

/-- Decoding consumes one encoded scalar value off the front. -/
theorem utf8EncodeChar_emit (u : Nat) (rest : List Nat) (fuel : Nat) (hu : IsScalar u) :
    utf8DecodeAux (fuel + 1) (utf8EncodeChar u ++ rest) =
      (utf8DecodeAux fuel rest).map (fun s => u :: s) := by
  obtain ⟨hu1, hu2⟩ := hu
  by_cases h1 : u < 128
  · simp only [utf8EncodeChar, if_pos h1, List.cons_append, List.nil_append]
    rw [utf8DecodeAux.eq_3, if_pos h1]
  · by_cases h2 : u < 2048
    · simp only [utf8EncodeChar, if_neg h1, if_pos h2, List.cons_append, List.nil_append]
      rw [utf8DecodeAux.eq_3, if_neg (by omega), if_neg (by omega), if_pos (by omega)]
      simp only [takeCont_mod]
      have e1 : (192 + u / 64 - 192) * 64 + u % 64 = u := by omega
      rw [e1, if_pos (by omega)]
    · by_cases h3 : u < 65536
      · simp only [utf8EncodeChar, if_neg h1, if_neg h2, if_pos h3, List.cons_append,
          List.nil_append]
        rw [utf8DecodeAux.eq_3, if_neg (by omega), if_neg (by omega), if_neg (by omega),
          if_pos (by omega)]
        simp only [takeCont_mod]
        have e1 : (224 + u / 4096 - 224) * 4096 + u / 64 % 64 * 64 + u % 64 = u := by omega
        rw [e1, if_pos (by constructor <;> omega)]
      · simp only [utf8EncodeChar, if_neg h1, if_neg h2, if_neg h3, List.cons_append,
          List.nil_append]
        rw [utf8DecodeAux.eq_3, if_neg (by omega), if_neg (by omega), if_neg (by omega),
          if_neg (by omega), if_pos (by omega)]
        simp only [takeCont_mod]
        have e1 : (240 + u / 262144 - 240) * 262144 + u / 4096 % 64 * 4096 +
            u / 64 % 64 * 64 + u % 64 = u := by omega
        rw [e1, if_pos (by constructor <;> omega)]

/-- UTF-8 bytes of a scalar value are bytes. -/
theorem utf8EncodeChar_lt256 {u : Nat} (h : u < 1114112) : ∀ b ∈ utf8EncodeChar u, b < 256 := by
  intro b hb
  unfold utf8EncodeChar at hb
  split at hb
  · simp at hb; omega
  · split at hb
    · simp at hb; rcases hb with hb | hb <;> omega
    · split at hb
      · simp at hb; rcases hb with hb | hb | hb <;> omega
      · simp at hb; rcases hb with hb | hb | hb | hb <;> omega

/-- UTF-8 output of a well-formed string is a byte sequence. -/
theorem utf8Encode_lt256 {s : RStr} (h : StrWF s) : ∀ b ∈ utf8Encode s, b < 256 := by
  intro b hb
  unfold utf8Encode at hb
  rw [List.mem_flatten] at hb
  obtain ⟨l, hl, hbl⟩ := hb
  rw [List.mem_map] at hl
  obtain ⟨u, hu, rfl⟩ := hl
  exact utf8EncodeChar_lt256 (h u hu).2 b hbl

/-- Every scalar value takes at least one byte. -/
theorem utf8EncodeChar_length_pos (u : Nat) : 1 ≤ (utf8EncodeChar u).length := by
  unfold utf8EncodeChar
  split
  · simp
  · split
    · simp
    · split <;> simp

/-- The UTF-8 encoding is at least as long as the string. -/
theorem utf8Encode_length_ge (s : RStr) : s.length ≤ (utf8Encode s).length := by
  induction s with
  | nil => simp [utf8Encode]
  | cons u s ih =>
    have h1 := utf8EncodeChar_length_pos u
    simp only [utf8Encode, List.map_cons, List.flatten_cons, List.length_append,
      List.length_cons]
    simp only [utf8Encode] at ih
    omega

/-- Encoding distributes over cons. -/
theorem utf8Encode_cons (u : Nat) (s : RStr) :
    utf8Encode (u :: s) = utf8EncodeChar u ++ utf8Encode s := by
  simp [utf8Encode]

/-- Fuel-level UTF-8 round trip. -/
theorem utf8_rt : ∀ (s : RStr) (fuel : Nat), StrWF s → s.length < fuel →
    utf8DecodeAux fuel (utf8Encode s) = some s
  | [], fuel, _, hf => by
    obtain ⟨f, rfl⟩ : ∃ f, fuel = f + 1 := ⟨fuel - 1, by omega⟩
    simp [utf8Encode, utf8DecodeAux]
  | u :: s, fuel, h, hf => by
    obtain ⟨f, rfl⟩ : ∃ f, fuel = f + 1 := ⟨fuel - 1, by omega⟩
    have hu : IsScalar u := h u (by simp)
    have ih := utf8_rt s f (fun x hx => h x (by simp [hx])) (by simp at hf; omega)
    rw [utf8Encode_cons, utf8EncodeChar_emit u _ f hu, ih]
    rfl

/-- UTF-8 round trip: decoding an encoding of a well-formed string
recovers it. -/
theorem utf8_roundtrip (s : RStr) (h : StrWF s) : utf8Decode (utf8Encode s) = some s := by
  have hlen := utf8Encode_length_ge s
  exact utf8_rt s ((utf8Encode s).length + 1) h (by omega)

/-- Hex digit characters read back as their value. -/
theorem hexVal_hexDigit {d : Nat} (h : d < 16) : hexVal (hexDigit d) = some d := by
  interval_cases d <;> rfl

/-- Reading the printed `\u00XX` control escape. -/
theorem readEscape_control (u : Nat) (tail : RStr) (h : u < 32) :
    readEscape (117 :: 48 :: 48 :: hexDigit (u / 16) :: hexDigit (u % 16) :: tail) =
      some (u, tail) := by
  rw [readEscape.eq_2]
  repeat rw [if_neg (by omega)]
  rw [if_pos rfl]
  have h4 : readHex4 (48 :: 48 :: hexDigit (u / 16) :: hexDigit (u % 16) :: tail) =
      some (u / 16 * 16 + u % 16, tail) := by
    simp only [readHex4, hex4, show hexVal 48 = some 0 from rfl,
      hexVal_hexDigit (show u / 16 < 16 by omega),
      hexVal_hexDigit (show u % 16 < 16 by omega)]
    norm_num
  rw [h4]
  simp only
  have e1 : u / 16 * 16 + u % 16 = u := by omega
  rw [e1, if_pos (by omega)]

/-- Escaping distributes over cons. -/
theorem escapeString_cons (u : Nat) (s : RStr) :
    escapeString (u :: s) = escapeChar u ++ escapeString s := by
  simp [escapeString]

/-- One escape sequence step of the string body reader. -/
theorem parseStringBody_esc (f u e : Nat) (tail : RStr)
    (h : readEscape (e :: tail) = some (u, tail)) :
    parseStringBody (f + 1) (92 :: e :: tail) =
      (parseStringBody f tail).map (fun p => (u :: p.1, p.2)) := by
  rw [parseStringBody.eq_3, if_neg (by omega), if_pos rfl, h]

/-- One `\u00XX` step of the string body reader. -/
theorem parseStringBody_escu (f u : Nat) (tail : RStr) (hu : u < 32) :
    parseStringBody (f + 1)
        (92 :: 117 :: 48 :: 48 :: hexDigit (u / 16) :: hexDigit (u % 16) :: tail) =
      (parseStringBody f tail).map (fun p => (u :: p.1, p.2)) := by
  rw [parseStringBody.eq_3, if_neg (by omega), if_pos rfl, readEscape_control u tail hu]

/-- String body round trip: reading an escaped body up to the closing
quote recovers the original characters. -/
theorem parseStringBody_escape : ∀ (s : RStr) (fuel : Nat) (rest : RStr), s.length < fuel →
    parseStringBody fuel (escapeString s ++ 34 :: rest) = some (s, rest)
  | [], fuel, rest, hf => by
    obtain ⟨f, rfl⟩ : ∃ f, fuel = f + 1 := ⟨fuel - 1, by omega⟩
    simp [escapeString, parseStringBody]
  | u :: s, fuel, rest, hf => by
    obtain ⟨f, rfl⟩ : ∃ f, fuel = f + 1 := ⟨fuel - 1, by omega⟩
    have ih := parseStringBody_escape s f rest (by rw [List.length_cons] at hf; omega)
    rw [escapeString_cons, List.append_assoc]
    by_cases h34 : u = 34
    · subst h34
      rw [show escapeChar 34 = [92, 34] from rfl]
      show parseStringBody (f + 1) (92 :: 34 :: (escapeString s ++ 34 :: rest)) = _
      rw [parseStringBody_esc f 34 34 _ rfl, ih]
      rfl
    · by_cases h92 : u = 92
      · subst h92
        rw [show escapeChar 92 = [92, 92] from rfl]
        show parseStringBody (f + 1) (92 :: 92 :: (escapeString s ++ 34 :: rest)) = _
        rw [parseStringBody_esc f 92 92 _ rfl, ih]
        rfl
      · by_cases h8 : u = 8
        · subst h8
          rw [show escapeChar 8 = [92, 98] from rfl]
          show parseStringBody (f + 1) (92 :: 98 :: (escapeString s ++ 34 :: rest)) = _
          rw [parseStringBody_esc f 8 98 _ rfl, ih]
          rfl
        · by_cases h9 : u = 9
          · subst h9
            rw [show escapeChar 9 = [92, 116] from rfl]
            show parseStringBody (f + 1) (92 :: 116 :: (escapeString s ++ 34 :: rest)) = _
            rw [parseStringBody_esc f 9 116 _ rfl, ih]
            rfl
          · by_cases h10 : u = 10
            · subst h10
              rw [show escapeChar 10 = [92, 110] from rfl]
              show parseStringBody (f + 1) (92 :: 110 :: (escapeString s ++ 34 :: rest)) = _
              rw [parseStringBody_esc f 10 110 _ rfl, ih]
              rfl
            · by_cases h12 : u = 12
              · subst h12
                rw [show escapeChar 12 = [92, 102] from rfl]
                show parseStringBody (f + 1) (92 :: 102 :: (escapeString s ++ 34 :: rest)) = _
                rw [parseStringBody_esc f 12 102 _ rfl, ih]
                rfl
              · by_cases h13 : u = 13
                · subst h13
                  rw [show escapeChar 13 = [92, 114] from rfl]
                  show parseStringBody (f + 1) (92 :: 114 :: (escapeString s ++ 34 :: rest)) = _
                  rw [parseStringBody_esc f 13 114 _ rfl, ih]
                  rfl
                · by_cases hc : u < 32
                  · rw [show escapeChar u =
                      [92, 117, 48, 48, hexDigit (u / 16), hexDigit (u % 16)] by
                        unfold escapeChar
                        rw [if_neg h34, if_neg h92, if_neg h8, if_neg h9, if_neg h10,
                          if_neg h12, if_neg h13, if_pos hc]]
                    show parseStringBody (f + 1) (92 :: 117 :: 48 :: 48 ::
                      hexDigit (u / 16) :: hexDigit (u % 16) ::
                      (escapeString s ++ 34 :: rest)) = _
                    rw [parseStringBody_escu f u _ hc, ih]
                    rfl
                  · rw [show escapeChar u = [u] by
                      unfold escapeChar
                      rw [if_neg h34, if_neg h92, if_neg h8, if_neg h9, if_neg h10,
                        if_neg h12, if_neg h13, if_neg hc]]
                    show parseStringBody (f + 1) (u :: (escapeString s ++ 34 :: rest)) = _
                    rw [parseStringBody.eq_3, if_neg h34, if_neg h92, if_neg (by omega), ih]
                    rfl

/-- Digits of a single-digit number. -/
theorem natDigits_lt {n : Nat} (h : n < 10) : natDigits n = [48 + n] := by
  rw [natDigits, dif_pos h]

/-- Digits of a multi-digit number. -/
theorem natDigits_ge {n : Nat} (h : ¬n < 10) :
    natDigits n = natDigits (n / 10) ++ [48 + n % 10] := by
  conv_lhs => rw [natDigits]
  rw [dif_neg h]

/-- The digit reader stops at a non-digit. -/
theorem parseDigits_stop (acc : Nat) (rest : RStr) (h : headIsDigit rest = false) :
    parseDigits acc rest = (acc, rest) := by
  cases rest with
  | nil => rfl
  | cons c r =>
    simp only [headIsDigit] at h
    rw [parseDigits.eq_2, if_neg (by simp [h])]

/-- Reading printed digits accumulates exactly the printed number. -/
theorem parseDigits_natDigits (n : Nat) : ∀ (acc : Nat) (rest : RStr),
    parseDigits acc (natDigits n ++ rest) =
      parseDigits (acc * 10 ^ (natDigits n).length + n) rest := by
  induction n using Nat.strong_induction_on with
  | _ n ih =>
    intro acc rest
    by_cases h : n < 10
    · rw [natDigits_lt h]
      show parseDigits acc ((48 + n) :: rest) = _
      rw [parseDigits.eq_2, if_pos (by simp only [isDigit, Bool.and_eq_true, decide_eq_true_eq]; omega)]
      have e : acc * 10 + (48 + n - 48) = acc * 10 ^ ([48 + n] : RStr).length + n := by
        simp
      rw [e]
    · rw [natDigits_ge h, List.append_assoc]
      rw [ih (n / 10) (Nat.div_lt_self (by omega) (by omega)) acc ([48 + n % 10] ++ rest)]
      show parseDigits _ ((48 + n % 10) :: rest) = _
      rw [parseDigits.eq_2, if_pos (by simp only [isDigit, Bool.and_eq_true, decide_eq_true_eq]; omega)]
      have e : (acc * 10 ^ (natDigits (n / 10)).length + n / 10) * 10 + (48 + n % 10 - 48) =
          acc * 10 ^ (natDigits (n / 10) ++ [48 + n % 10] : RStr).length + n := by
        rw [show 48 + n % 10 - 48 = n % 10 by omega]
        rw [List.length_append, List.length_cons, List.length_nil, Nat.pow_succ]
        have hdm : n / 10 * 10 + n % 10 = n := by omega
        ring_nf
        omega
      rw [e]

/-- Printed digits start with a digit character, nonzero unless the
number is zero. -/
theorem natDigits_head (n : Nat) : ∃ c ds, natDigits n = c :: ds ∧ 48 ≤ c ∧ c ≤ 57 ∧
    (c = 48 → n = 0) := by
  induction n using Nat.strong_induction_on with
  | _ n ih =>
    by_cases h : n < 10
    · exact ⟨48 + n, [], natDigits_lt h, by omega, by omega, by omega⟩
    · obtain ⟨c, ds, hds, hc1, hc2, hc3⟩ := ih (n / 10) (Nat.div_lt_self (by omega) (by omega))
      refine ⟨c, ds ++ [48 + n % 10], ?_, hc1, hc2, ?_⟩
      · rw [natDigits_ge h, hds]
        rfl
      · intro hc
        have := hc3 hc
        omega

/-- Digits of zero. -/
theorem natDigits_zero : natDigits 0 = [48] := natDigits_lt (by omega)

/-- Unsigned integer round trip against the printed digits. -/
theorem parseNatBody_natDigits (n : Nat) (rest : RStr) (h : headIsDigit rest = false) :
    parseNatBody (natDigits n ++ rest) = some (n, rest) := by
  obtain ⟨c, ds, hds, hc1, hc2, hc3⟩ := natDigits_head n
  rw [hds, List.cons_append, parseNatBody.eq_2,
    if_pos (by simp only [isDigit, Bool.and_eq_true, decide_eq_true_eq]; omega)]
  by_cases hz : c = 48
  · have hn0 : n = 0 := hc3 hz
    subst hn0
    rw [natDigits_zero] at hds
    injection hds with h1 h2
    subst hz
    rw [if_pos rfl, ← h2]
    simp only [List.nil_append]
    rw [h]
    simp
  · rw [if_neg hz]
    have step : parseDigits (c - 48) (ds ++ rest) = (n, rest) := by
      have h0 := parseDigits_natDigits n 0 rest
      rw [hds, List.cons_append, parseDigits.eq_2,
        if_pos (by simp only [isDigit, Bool.and_eq_true, decide_eq_true_eq]; omega)] at h0
      simp only [Nat.zero_mul, Nat.zero_add] at h0
      rw [h0, parseDigits_stop _ _ h]
    rw [step]

/-- Signed integer round trip against the printed form. -/
theorem parseIntBody_intPrint (n : Int) (rest : RStr) (h : headIsDigit rest = false) :
    parseIntBody (intPrint n ++ rest) = some (n, rest) := by
  by_cases hn : n < 0
  · rw [intPrint, if_pos hn, List.cons_append, parseIntBody.eq_2, if_pos rfl,
      parseNatBody_natDigits _ _ h]
    simp only [Option.map_some']
    congr 1
    have : ((-n).toNat : Int) = -n := Int.toNat_of_nonneg (by omega)
    rw [Prod.mk.injEq]
    constructor
    · rw [this]; omega
    · rfl
  · rw [intPrint, if_neg hn]
    obtain ⟨c, ds, hds, hc1, hc2, _⟩ := natDigits_head n.toNat
    rw [hds, List.cons_append, parseIntBody.eq_2, if_neg (by omega), ← List.cons_append,
      ← hds, parseNatBody_natDigits _ _ h]
    simp only [Option.map_some']
    congr 2
    omega

/-- Whitespace skipping leaves a non-whitespace head alone. -/
theorem skipWs_not (c : Nat) (r : RStr) (h : isWs c = false) : skipWs (c :: r) = c :: r := by
  rw [skipWs.eq_2, if_neg (by simp [h])]

/-- Each escaped character yields at least one character. -/
theorem escapeChar_length_pos (u : Nat) : 1 ≤ (escapeChar u).length := by
  unfold escapeChar
  repeat' split
  all_goals simp

/-- Escaping never shortens a string. -/
theorem escapeString_length_ge (s : RStr) : s.length ≤ (escapeString s).length := by
  induction s with
  | nil => simp [escapeString]
  | cons u s ih =>
    have := escapeChar_length_pos u
    simp only [escapeString, List.map_cons, List.flatten_cons, List.length_append,
      List.length_cons]
    simp only [escapeString] at ih
    omega

/-- Printed values start with a known non-whitespace, non-closing
character. -/
theorem jsonPrint_head (j : Json) : ∃ c r, jsonPrint j = c :: r ∧ isWs c = false ∧
    c ≠ 93 ∧ c ≠ 125 := by
  cases j with
  | null => exact ⟨110, _, rfl, by decide, by decide, by decide⟩
  | bool b => cases b with
    | true => exact ⟨116, _, rfl, by decide, by decide, by decide⟩
    | false => exact ⟨102, _, rfl, by decide, by decide, by decide⟩
  | num n =>
    by_cases hn : n < 0
    · exact ⟨45, _, by rw [jsonPrint, intPrint, if_pos hn], by decide, by decide, by decide⟩
    · obtain ⟨c, ds, hds, h1, h2, _⟩ := natDigits_head n.toNat
      exact ⟨c, ds, by rw [jsonPrint, intPrint, if_neg hn, hds],
        by simp [isWs]; omega, by omega, by omega⟩
  | str s => exact ⟨34, _, rfl, by decide, by decide, by decide⟩
  | arr xs =>
    exact ⟨91, elemsPrint xs ++ [93], by rw [jsonPrint, List.cons_append], by decide,
      by decide, by decide⟩
  | obj fs =>
    exact ⟨123, membersPrint fs ++ [125], by rw [jsonPrint, List.cons_append], by decide,
      by decide, by decide⟩

/-- Printed element lists start with their first printed element. -/
theorem elemsPrint_decomp (x : Json) (xs : List Json) :
    ∃ t, elemsPrint (x :: xs) = jsonPrint x ++ t := by
  cases xs with
  | nil => exact ⟨[], by rw [elemsPrint, List.append_nil]⟩
  | cons y ys =>
    exact ⟨44 :: elemsPrint (y :: ys), by rw [elemsPrint]; all_goals simp⟩

/-- Printed member lists start with the opening quote of the first key. -/
theorem membersPrint_head (k : RStr) (v : Json) (fs : List (RStr × Json)) :
    ∃ t, membersPrint ((k, v) :: fs) = 34 :: t := by
  cases fs with
  | nil =>
    refine ⟨escapeString k ++ [34, 58] ++ jsonPrint v, ?_⟩
    rw [membersPrint]
    simp
  | cons g gs =>
    refine ⟨escapeString k ++ [34, 58] ++ jsonPrint v ++ 44 :: membersPrint (g :: gs), ?_⟩
    rw [membersPrint]
    all_goals simp

/-- A non-digit head is not a digit head. -/
theorem headIsDigit_cons_false (c : Nat) (r : RStr) (h : isDigit c = false) :
    headIsDigit (c :: r) = false := by
  simp [headIsDigit, h]

mutual
/-- Value round trip: reading a printed value consumes exactly it. -/
theorem pv_print : ∀ (j : Json) (fuel : Nat) (rest : RStr),
    fuelNeed j ≤ fuel → headIsDigit rest = false →
    parseValue fuel (jsonPrint j ++ rest) = some (j, rest)
  | .null, fuel, rest, hf, _ => by
    obtain ⟨F, rfl⟩ : ∃ F, fuel = F + 1 := ⟨fuel - 1, by simp [fuelNeed] at hf; omega⟩
    rfl
  | .bool true, fuel, rest, hf, _ => by
    obtain ⟨F, rfl⟩ : ∃ F, fuel = F + 1 := ⟨fuel - 1, by simp [fuelNeed] at hf; omega⟩
    rfl
  | .bool false, fuel, rest, hf, _ => by
    obtain ⟨F, rfl⟩ : ∃ F, fuel = F + 1 := ⟨fuel - 1, by simp [fuelNeed] at hf; omega⟩
    rfl
  | .num n, fuel, rest, hf, hrest => by
    obtain ⟨F, rfl⟩ : ∃ F, fuel = F + 1 := ⟨fuel - 1, by simp [fuelNeed] at hf; omega⟩
    by_cases hn : n < 0
    · rw [jsonPrint, intPrint, if_pos hn, List.cons_append, parseValue.eq_3,
        if_neg (by omega), if_neg (by omega), if_neg (by omega), if_neg (by omega),
        if_pos (by decide)]
      have hi : parseIntBody (45 :: (natDigits (-n).toNat ++ rest)) = some (n, rest) := by
        rw [show (45 :: (natDigits (-n).toNat ++ rest) : RStr) = intPrint n ++ rest by
          rw [intPrint, if_pos hn, List.cons_append]]
        exact parseIntBody_intPrint n rest hrest
      rw [hi]
      rfl
    · obtain ⟨c, ds, hds, hb1, hb2, _⟩ := natDigits_head n.toNat
      rw [jsonPrint, intPrint, if_neg hn, hds, List.cons_append, parseValue.eq_3,
        if_neg (by omega), if_neg (by omega), if_neg (by omega), if_neg (by omega),
        if_pos (by simp only [isDigit, Bool.or_eq_true, decide_eq_true_eq,
          Bool.and_eq_true]; omega)]
      have hi : parseIntBody (c :: (ds ++ rest)) = some (n, rest) := by
        rw [show (c :: (ds ++ rest) : RStr) = intPrint n ++ rest by
          rw [intPrint, if_neg hn, hds, List.cons_append]]
        exact parseIntBody_intPrint n rest hrest
      rw [hi]
      rfl
  | .str s, fuel, rest, hf, _ => by
    obtain ⟨F, rfl⟩ : ∃ F, fuel = F + 1 := ⟨fuel - 1, by simp [fuelNeed] at hf; omega⟩
    rw [jsonPrint]
    simp only [List.cons_append, List.append_assoc, List.singleton_append, List.nil_append]
    rw [parseValue.eq_3, if_neg (by omega), if_neg (by omega), if_neg (by omega),
      if_pos rfl]
    rw [parseStringBody_escape s F rest (by simp [fuelNeed] at hf; omega)]
    rfl
  | .arr xs, fuel, rest, hf, _ => by
    obtain ⟨F, rfl⟩ : ∃ F, fuel = F + 1 := ⟨fuel - 1, by simp [fuelNeed] at hf; omega⟩
    rw [jsonPrint]
    simp only [List.cons_append, List.append_assoc, List.singleton_append, List.nil_append]
    rw [parseValue.eq_3, if_neg (by omega), if_neg (by omega), if_neg (by omega),
      if_neg (by omega), if_neg (by decide), if_pos rfl]
    obtain ⟨F2, rfl⟩ : ∃ F2, F = F2 + 1 := ⟨F - 1, by simp [fuelNeed] at hf; omega⟩
    cases xs with
    | nil =>
      rw [elemsPrint, List.nil_append, parseArrTail.eq_2,
        skipWs_not 93 rest (by decide)]
      simp
    | cons x xs1 =>
      obtain ⟨t, ht⟩ := elemsPrint_decomp x xs1
      obtain ⟨c, r, hcr, hws, h93, _⟩ := jsonPrint_head x
      have hsh : elemsPrint (x :: xs1) ++ 93 :: rest = c :: (r ++ t ++ 93 :: rest) := by
        rw [ht, hcr]
        simp
      rw [parseArrTail.eq_2, hsh, skipWs_not c _ hws]
      simp only [if_neg h93]
      rw [← hsh]
      rw [pe_print (x :: xs1) F2 rest (by simp) (by simp [fuelNeed] at hf; omega)]
      rfl
  | .obj fs, fuel, rest, hf, _ => by
    obtain ⟨F, rfl⟩ : ∃ F, fuel = F + 1 := ⟨fuel - 1, by simp [fuelNeed] at hf; omega⟩
    rw [jsonPrint]
    simp only [List.cons_append, List.append_assoc, List.singleton_append, List.nil_append]
    rw [parseValue.eq_3, if_neg (by omega), if_neg (by omega), if_neg (by omega),
      if_neg (by omega), if_neg (by decide), if_neg (by decide), if_pos rfl]
    obtain ⟨F2, rfl⟩ : ∃ F2, F = F2 + 1 := ⟨F - 1, by simp [fuelNeed] at hf; omega⟩
    cases fs with
    | nil =>
      rw [membersPrint, List.nil_append, parseObjTail.eq_2,
        skipWs_not 125 rest (by decide)]
      simp
    | cons g fs1 =>
      obtain ⟨k, v⟩ := g
      obtain ⟨t, ht⟩ := membersPrint_head k v fs1
      have hsh : membersPrint ((k, v) :: fs1) ++ 125 :: rest = 34 :: (t ++ 125 :: rest) := by
        rw [ht]
        simp
      rw [parseObjTail.eq_2, hsh, skipWs_not 34 _ (by decide)]
      simp only [if_neg (by decide : ¬(34 : Nat) = 125)]
      rw [← hsh]
      rw [pm_print ((k, v) :: fs1) F2 rest (by simp) (by simp [fuelNeed] at hf; omega)]
      rfl

/-- Element-list round trip through the closing bracket. -/
theorem pe_print : ∀ (xs : List Json) (fuel : Nat) (rest : RStr), xs ≠ [] →
    fuelNeedElems xs ≤ fuel →
    parseElems fuel (elemsPrint xs ++ 93 :: rest) = some (xs, rest)
  | [], _, _, hne, _ => absurd rfl hne
  | [x], fuel, rest, _, hf => by
    obtain ⟨G, rfl⟩ : ∃ G, fuel = G + 1 :=
      ⟨fuel - 1, by simp [fuelNeedElems] at hf; omega⟩
    rw [parseElems.eq_2, elemsPrint]
    simp only [pv_print x G (93 :: rest)
      (by simp [fuelNeedElems, fuelNeed] at hf; omega)
      (headIsDigit_cons_false 93 rest (by decide))]
    rw [skipWs_not 93 rest (by decide)]
    simp
  | x :: y :: ys, fuel, rest, _, hf => by
    obtain ⟨G, rfl⟩ : ∃ G, fuel = G + 1 :=
      ⟨fuel - 1, by simp [fuelNeedElems] at hf; omega⟩
    rw [parseElems.eq_2, elemsPrint, List.append_assoc, List.cons_append]
    simp only [pv_print x G _
      (by simp [fuelNeedElems, fuelNeed] at hf; omega)
      (headIsDigit_cons_false 44 _ (by decide))]
    rw [skipWs_not 44 _ (by decide)]
    simp only [if_pos rfl]
    obtain ⟨t, ht⟩ := elemsPrint_decomp y ys
    obtain ⟨c, r, hcr, hws, _, _⟩ := jsonPrint_head y
    have hsh : elemsPrint (y :: ys) ++ 93 :: rest = c :: (r ++ t ++ 93 :: rest) := by
      rw [ht, hcr]
      simp
    rw [hsh, skipWs_not c _ hws, ← hsh]
    rw [pe_print (y :: ys) G rest (by simp)
      (by simp [fuelNeedElems] at hf ⊢; omega)]
    all_goals simp

/-- Member-list round trip through the closing brace. -/
theorem pm_print : ∀ (fs : List (RStr × Json)) (fuel : Nat) (rest : RStr), fs ≠ [] →
    fuelNeedMembers fs ≤ fuel →
    parseMembers fuel (membersPrint fs ++ 125 :: rest) = some (fs, rest)
  | [], _, _, hne, _ => absurd rfl hne
  | [(k, v)], fuel, rest, _, hf => by
    obtain ⟨G, rfl⟩ : ∃ G, fuel = G + 1 :=
      ⟨fuel - 1, by simp [fuelNeedMembers] at hf; omega⟩
    rw [membersPrint]
    simp only [List.cons_append, List.append_assoc, List.singleton_append,
      List.nil_append]
    rw [parseMembers.eq_2, if_neg (by omega)]
    rw [parseStringBody_escape k G _
      (by have := escapeString_length_ge k; simp [fuelNeedMembers] at hf; omega)]
    simp only
    rw [skipWs_not 58 _ (by decide)]
    simp only []
    rw [if_neg (by omega)]
    obtain ⟨c, r, hcr, hws, _, _⟩ := jsonPrint_head v
    have hsh : jsonPrint v ++ 125 :: rest = c :: (r ++ 125 :: rest) := by
      rw [hcr]
      simp
    rw [hsh, skipWs_not c _ hws, ← hsh]
    simp only [pv_print v G (125 :: rest)
      (by simp [fuelNeedMembers] at hf; omega)
      (headIsDigit_cons_false 125 rest (by decide))]
    rw [skipWs_not 125 rest (by decide)]
    simp
  | (k, v) :: g :: gs, fuel, rest, _, hf => by
    obtain ⟨G, rfl⟩ : ∃ G, fuel = G + 1 :=
      ⟨fuel - 1, by simp [fuelNeedMembers] at hf; omega⟩
    rw [membersPrint]
    simp only [List.cons_append, List.append_assoc, List.singleton_append,
      List.nil_append]
    rw [parseMembers.eq_2, if_neg (by omega)]
    rw [parseStringBody_escape k G _
      (by have := escapeString_length_ge k; simp [fuelNeedMembers] at hf; omega)]
    simp only
    rw [skipWs_not 58 _ (by decide)]
    simp only []
    rw [if_neg (by omega)]
    obtain ⟨c, r, hcr, hws, _, _⟩ := jsonPrint_head v
    have hsh : jsonPrint v ++ 44 :: (membersPrint (g :: gs) ++ 125 :: rest) =
        c :: (r ++ 44 :: (membersPrint (g :: gs) ++ 125 :: rest)) := by
      rw [hcr]
      simp
    rw [hsh, skipWs_not c _ hws, ← hsh]
    simp only [pv_print v G _
      (by simp [fuelNeedMembers] at hf; omega)
      (headIsDigit_cons_false 44 _ (by decide))]
    rw [skipWs_not 44 _ (by decide)]
    simp only [if_pos rfl]
    obtain ⟨k2, v2⟩ := g
    obtain ⟨t2, ht2⟩ := membersPrint_head k2 v2 gs
    have hsh2 : membersPrint ((k2, v2) :: gs) ++ 125 :: rest =
        34 :: (t2 ++ 125 :: rest) := by
      rw [ht2]
      simp
    rw [hsh2, skipWs_not 34 _ (by decide), ← hsh2]
    rw [pm_print ((k2, v2) :: gs) G rest (by simp)
      (by simp [fuelNeedMembers] at hf ⊢; omega)]
    all_goals simp
end

mutual
/-- The fuel a printed value needs is within the parse fuel budget. -/
theorem fuelNeed_le : ∀ j : Json, fuelNeed j ≤ 2 * (jsonPrint j).length
  | .null => by simp [fuelNeed, jsonPrint]
  | .bool true => by simp [fuelNeed, jsonPrint]
  | .bool false => by simp [fuelNeed, jsonPrint]
  | .num n => by
    obtain ⟨c, ds, hds, _, _, _⟩ := natDigits_head n.toNat
    simp only [fuelNeed, jsonPrint]
    by_cases hn : n < 0
    · rw [intPrint, if_pos hn]
      simp only [List.length_cons]
      omega
    · rw [intPrint, if_neg hn, hds]
      simp only [List.length_cons]
      omega
  | .str s => by
    have := escapeString_length_ge s
    simp only [fuelNeed, jsonPrint, List.length_cons, List.length_append]
    simp
    omega
  | .arr xs => by
    have := fuelNeedElems_le xs
    simp only [fuelNeed, jsonPrint, List.length_cons, List.length_append]
    simp
    omega
  | .obj fs => by
    have := fuelNeedMembers_le fs
    simp only [fuelNeed, jsonPrint, List.length_cons, List.length_append]
    simp
    omega

/-- Element fuel bound. -/
theorem fuelNeedElems_le : ∀ xs : List Json, fuelNeedElems xs ≤ 2 * (elemsPrint xs).length + 1
  | [] => by simp [fuelNeedElems, elemsPrint]
  | [x] => by
    have := fuelNeed_le x
    simp only [fuelNeedElems, elemsPrint]
    omega
  | x :: y :: ys => by
    have h1 := fuelNeed_le x
    have h2 := fuelNeedElems_le (y :: ys)
    simp only [fuelNeedElems] at h2 ⊢
    rw [elemsPrint]
    · simp only [List.length_append, List.length_cons]
      omega
    · simp

/-- Member fuel bound. -/
theorem fuelNeedMembers_le : ∀ fs : List (RStr × Json),
    fuelNeedMembers fs ≤ 2 * (membersPrint fs).length + 1
  | [] => by simp [fuelNeedMembers, membersPrint]
  | [(k, v)] => by
    have h1 := fuelNeed_le v
    have h2 := escapeString_length_ge k
    simp only [fuelNeedMembers, fuelNeedMembers.eq_1, membersPrint]
    simp only [List.length_cons, List.length_append]
    omega
  | (k, v) :: g :: gs => by
    have h1 := fuelNeed_le v
    have h2 := escapeString_length_ge k
    have h3 := fuelNeedMembers_le (g :: gs)
    simp only [fuelNeedMembers] at h3 ⊢
    rw [membersPrint]
    · simp only [List.length_cons, List.length_append]
      omega
    · simp
end

/-- JSON round trip: parsing a printed document recovers the value. -/
theorem jsonParse_jsonPrint (j : Json) : jsonParse (jsonPrint j) = some j := by
  obtain ⟨c, r, hcr, hws, _, _⟩ := jsonPrint_head j
  have hp := pv_print j (2 * (jsonPrint j).length + 2) []
    (le_trans (fuelNeed_le j) (by omega)) rfl
  rw [List.append_nil] at hp
  rw [jsonParse, hcr, skipWs_not c r hws, ← hcr]
  simp only [hp]
  rfl

/-- Escaping a scalar character yields scalar characters. -/
theorem escapeChar_scalar {u : Nat} (h : IsScalar u) : ∀ c ∈ escapeChar u, IsScalar c := by
  intro c hc
  unfold escapeChar at hc
  split at hc
  · simp at hc; exact ⟨by omega, by omega⟩
  · split at hc
    · simp at hc; exact ⟨by omega, by omega⟩
    · split at hc
      · simp at hc; exact ⟨by omega, by omega⟩
      · split at hc
        · simp at hc; exact ⟨by omega, by omega⟩
        · split at hc
          · simp at hc; exact ⟨by omega, by omega⟩
          · split at hc
            · simp at hc; exact ⟨by omega, by omega⟩
            · split at hc
              · simp at hc; exact ⟨by omega, by omega⟩
              · split at hc
                · simp only [hexDigit, List.mem_cons, List.not_mem_nil, or_false] at hc
                  have h1 : (if u / 16 < 10 then 48 + u / 16 else 87 + u / 16) < 128 := by
                    split
                    all_goals omega
                  have h2 : (if u % 16 < 10 then 48 + u % 16 else 87 + u % 16) < 128 := by
                    split
                    all_goals omega
                  exact ⟨by omega, by omega⟩
                · simp at hc; subst hc; exact h

/-- Escaping preserves well-formedness. -/
theorem escapeString_scalar {s : RStr} (h : StrWF s) : StrWF (escapeString s) := by
  intro c hc
  unfold escapeString at hc
  rw [List.mem_flatten] at hc
  obtain ⟨l, hl, hcl⟩ := hc
  rw [List.mem_map] at hl
  obtain ⟨u, hu, rfl⟩ := hl
  exact escapeChar_scalar (h u hu) c hcl

/-- Printed digits are digit characters. -/
theorem natDigits_mem (n : Nat) : ∀ c ∈ natDigits n, 48 ≤ c ∧ c ≤ 57 := by
  induction n using Nat.strong_induction_on with
  | _ n ih =>
    intro c hc
    by_cases h : n < 10
    · rw [natDigits_lt h] at hc
      simp at hc
      omega
    · rw [natDigits_ge h] at hc
      rw [List.mem_append] at hc
      rcases hc with hc | hc
      · exact ih (n / 10) (Nat.div_lt_self (by omega) (by omega)) c hc
      · simp at hc; omega

/-- Printed integers are well-formed strings. -/
theorem intPrint_scalar (n : Int) : StrWF (intPrint n) := by
  intro c hc
  unfold intPrint at hc
  split at hc
  · simp at hc
    rcases hc with rfl | hc
    · exact ⟨by omega, by omega⟩
    · have := natDigits_mem _ c hc
      exact ⟨by omega, by omega⟩
  · have := natDigits_mem _ c hc
    exact ⟨by omega, by omega⟩

/-- Well-formedness is closed under append. -/
theorem strwf_append {a b : RStr} (ha : StrWF a) (hb : StrWF b) : StrWF (a ++ b) := by
  intro c hc
  rw [List.mem_append] at hc
  rcases hc with hc | hc
  · exact ha c hc
  · exact hb c hc

/-- Well-formedness is closed under cons. -/
theorem strwf_cons {c : Nat} {s : RStr} (hc : IsScalar c) (hs : StrWF s) :
    StrWF (c :: s) := by
  intro x hx
  rw [List.mem_cons] at hx
  rcases hx with rfl | hx
  · exact hc
  · exact hs x hx

mutual
/-- Printing well-formed JSON yields a well-formed string. -/
theorem jsonPrint_scalar : ∀ j : Json, JsonWF j → StrWF (jsonPrint j)
  | .null, _ => by decide
  | .bool true, _ => by decide
  | .bool false, _ => by decide
  | .num n, _ => intPrint_scalar n
  | .str s, h => by
    rw [jsonPrint]
    exact strwf_append (strwf_cons (by decide) (escapeString_scalar h)) (by decide)
  | .arr xs, h => by
    rw [jsonPrint]
    exact strwf_append (strwf_cons (by decide) (elemsPrint_scalar xs h)) (by decide)
  | .obj fs, h => by
    rw [jsonPrint]
    exact strwf_append (strwf_cons (by decide) (membersPrint_scalar fs h)) (by decide)

/-- Element printing preserves well-formedness. -/
theorem elemsPrint_scalar : ∀ xs : List Json, JsonListWF xs → StrWF (elemsPrint xs)
  | [], _ => by decide
  | [x], h => by
    rw [elemsPrint]
    exact jsonPrint_scalar x h.1
  | x :: y :: ys, h => by
    rw [elemsPrint]
    · exact strwf_append (jsonPrint_scalar x h.1)
        (strwf_cons (by decide) (elemsPrint_scalar (y :: ys) h.2))
    · simp

/-- Member printing preserves well-formedness. -/
theorem membersPrint_scalar : ∀ fs : List (RStr × Json), JsonFieldsWF fs →
    StrWF (membersPrint fs)
  | [], _ => by decide
  | [(k, v)], h => by
    rw [membersPrint]
    exact strwf_append
      (strwf_append (strwf_cons (by decide) (escapeString_scalar h.1)) (by decide))
      (jsonPrint_scalar v h.2.1)
  | (k, v) :: g :: gs, h => by
    rw [membersPrint]
    · exact strwf_append
        (strwf_append
          (strwf_append (strwf_cons (by decide) (escapeString_scalar h.1)) (by decide))
          (jsonPrint_scalar v h.2.1))
        (strwf_cons (by decide) (membersPrint_scalar (g :: gs) h.2.2))
    · simp
end

set_option maxRecDepth 8000 in
/-- Struct round trip for `PaymentRequirements`: decoding the serialized
form yields the value with absent `extra` normalized to
`Some (Extra.mk none)` — serde flatten semantics. -/
theorem reqFromJson_reqToJson (r : PaymentRequirements) :
    reqFromJson (reqToJson r) = some (reqNormalize r) := by
  rcases r with ⟨s, n, a, as, p, extra⟩
  cases extra with
  | none => rfl
  | some e =>
    rcases e with ⟨sp⟩
    cases sp with
    | none => rfl
    | some b => rfl

/-- A `u32` in range decodes to itself. -/
theorem u32FromJson_ofNat (v : Nat) (h : v < 4294967296) :
    u32FromJson (.num (v : Int)) = some v := by
  rw [u32FromJson, if_pos (by constructor <;> [positivity; exact_mod_cast h])]
  simp

set_option maxRecDepth 8000 in
/-- Unfolding of the payload decoder on a serialized payload object. -/
theorem paymentPayloadFromJson_step (v : Int) (acc : PaymentRequirements) (t sa : RStr) :
    paymentPayloadFromJson (.obj
      [(codes "x402Version", Json.num v),
       (codes "accepted", reqToJson acc),
       (codes "payload", payloadToJson ⟨t, sa⟩)]) =
    (u32FromJson (Json.num v)).bind (fun n =>
        (reqFromJson (reqToJson acc)).bind (fun a2 =>
          some ⟨n, a2, ⟨t, sa⟩⟩)) := by
  rw [paymentPayloadFromJson]
  have e1 : getUnique (codes "x402Version")
      [(codes "x402Version", Json.num v),
       (codes "accepted", reqToJson acc),
       (codes "payload", payloadToJson ⟨t, sa⟩)] = some (Json.num v) := rfl
  have e2 : getUnique (codes "accepted")
      [(codes "x402Version", Json.num v),
       (codes "accepted", reqToJson acc),
       (codes "payload", payloadToJson ⟨t, sa⟩)] = some (reqToJson acc) := rfl
  have e3 : getUnique (codes "payload")
      [(codes "x402Version", Json.num v),
       (codes "accepted", reqToJson acc),
       (codes "payload", payloadToJson ⟨t, sa⟩)] = some (payloadToJson ⟨t, sa⟩) := rfl
  have e4 : payloadFromJson (payloadToJson ⟨t, sa⟩) = some (⟨t, sa⟩ : Payload) := rfl
  simp only [e1, e2, e3, e4, Option.bind_eq_bind, Option.some_bind]

set_option maxRecDepth 8000 in
/-- Struct round trip for `PaymentPayload` (same `extra` normalization in
the nested `accepted`). -/
theorem paymentPayloadFromJson_toJson (p : PaymentPayload)
    (hv : p.x402Version < 4294967296) :
    paymentPayloadFromJson (paymentPayloadToJson p) =
      some (paymentPayloadNormalize p) := by
  rcases p with ⟨v, acc, ⟨t, sa⟩⟩
  simp only [paymentPayloadToJson]
  rw [paymentPayloadFromJson_step]
  rw [u32FromJson_ofNat v hv]
  simp only [Option.some_bind]
  rw [reqFromJson_reqToJson]
  simp only [Option.some_bind]
  rfl

/-- Serializing well-formed requirements yields well-formed JSON. -/
theorem reqToJson_WF (r : PaymentRequirements) (h : ReqWF r) : JsonWF (reqToJson r) := by
  obtain ⟨h1, h2, h3, h4, h5⟩ := h
  rw [reqToJson, JsonWF]
  cases hx : r.extra with
  | none =>
    simp only [extraFieldsToJson, List.append_nil]
    exact ⟨by decide, h1, by decide, h2, by decide, h3, by decide, h4, by decide, h5, trivial⟩
  | some e =>
    simp only [extraFieldsToJson, List.cons_append, List.nil_append]
    refine ⟨by decide, h1, by decide, h2, by decide, h3, by decide, h4, by decide, h5,
      by decide, ?_, trivial⟩
    cases e.sponsored with
    | none => exact trivial
    | some b => exact trivial

/-- Serializing a well-formed payload yields well-formed JSON. -/
theorem paymentPayloadToJson_WF (p : PaymentPayload) (h : PaymentPayloadWF p) :
    JsonWF (paymentPayloadToJson p) := by
  obtain ⟨hacc, ht, hsa, _⟩ := h
  rw [paymentPayloadToJson, JsonWF]
  refine ⟨by decide, trivial, by decide, reqToJson_WF p.accepted hacc, by decide, ?_, trivial⟩
  rw [payloadToJson, JsonWF]
  exact ⟨by decide, ht, by decide, hsa, trivial⟩

/-- Header decoding through four successful stages. -/
theorem decodeRequirementsHeader_via (h bytes s : List Nat) (j : Json)
    (q : PaymentRequirements) (h1 : base64Decode h = some bytes)
    (h2 : utf8Decode bytes = some s) (h3 : jsonParse s = some j)
    (h4 : reqFromJson j = some q) : decodeRequirementsHeader h = .ok q := by
  rw [decodeRequirementsHeader]
  simp only [h1, h2, h3, h4]

/-- Payload header decoding through four successful stages. -/
theorem decodePayloadHeader_via (h bytes s : List Nat) (j : Json)
    (q : PaymentPayload) (h1 : base64Decode h = some bytes)
    (h2 : utf8Decode bytes = some s) (h3 : jsonParse s = some j)
    (h4 : paymentPayloadFromJson j = some q) : decodePayloadHeader h = .ok q := by
  rw [decodePayloadHeader]
  simp only [h1, h2, h3, h4]

/-- Requirements header round trip at the codec level. -/
theorem decodeRequirementsHeader_encode (r : PaymentRequirements) (h : ReqWF r) :
    decodeRequirementsHeader (encodeRequirementsHeader r) = .ok (reqNormalize r) := by
  have hscal : StrWF (jsonPrint (reqToJson r)) := jsonPrint_scalar _ (reqToJson_WF r h)
  exact decodeRequirementsHeader_via _ _ _ _ _
    (base64_roundtrip _ (utf8Encode_lt256 hscal))
    (utf8_roundtrip _ hscal)
    (jsonParse_jsonPrint _)
    (reqFromJson_reqToJson r)

/-- Payload header round trip at the codec level. -/
theorem decodePayloadHeader_encode (p : PaymentPayload) (h : PaymentPayloadWF p) :
    decodePayloadHeader (encodePayloadHeader p) = .ok (paymentPayloadNormalize p) := by
  have hscal : StrWF (jsonPrint (paymentPayloadToJson p)) :=
    jsonPrint_scalar _ (paymentPayloadToJson_WF p h)
  exact decodePayloadHeader_via _ _ _ _ _
    (base64_roundtrip _ (utf8Encode_lt256 hscal))
    (utf8_roundtrip _ hscal)
    (jsonParse_jsonPrint _)
    (paymentPayloadFromJson_toJson p h.2.2.2)

/-! ## The claims -/

/-- C1: for every verify request whose `paymentPayload.accepted` is not
structurally equal to the supplied `paymentRequirements`, the facilitator's
verify operation returns `isValid = false` with
`invalidReason = "requirements-mismatch"`. -/
theorem c1_requirements_mismatch (p : PaymentPayload) (r : PaymentRequirements)
    (h : p.accepted ≠ r) :
    verifyService p r = ⟨false, some (codes "requirements-mismatch")⟩ := by
  rw [verifyService, if_pos h]

/-- C1 witness: two concrete distinct well-formed requirements. -/
theorem c1_requirements_mismatch_witness :
    (buildPaymentPayload sampleRequirements).accepted ≠ sampleRequirementsNoExtra ∧
    verifyService (buildPaymentPayload sampleRequirements) sampleRequirementsNoExtra =
      ⟨false, some (codes "requirements-mismatch")⟩ :=
  ⟨by decide,
   c1_requirements_mismatch (buildPaymentPayload sampleRequirements)
     sampleRequirementsNoExtra (by decide)⟩

/-- C8: the facilitator's verify operation is idempotent and
side-effect-free — two calls with the same request give the same
`VerifyResult` and the facilitator state is unchanged; likewise the
transport handler leaves the state untouched and answers a repeated
connection identically. -/
theorem c8_verify_idempotent (f : FacilitatorState) (p : PaymentPayload)
    (r : PaymentRequirements) (input : List RStr) (ts : RStr) :
    (verifyOp f p r).2 = f ∧
    (verifyOp (verifyOp f p r).2 p r).1 = (verifyOp f p r).1 ∧
    (handleConnectionStep f input ts).2 = f ∧
    handleConnectionStep (handleConnectionStep f input ts).2 input ts =
      handleConnectionStep f input ts :=
  ⟨rfl, rfl, rfl, rfl⟩

/-- C9: the `amount` argument (and the random display hash) have no effect
on the flow — any two runs against the same environment produce identical
results, hence identical HTTP request traces, and the scheme-specific
payload bytes are the fixed base64 of 64 zero bytes, independent of
amount. -/
theorem c9_amount_has_no_effect (apiUrl : RStr) (env : FlowEnv) (a1 a2 : Nat)
    (rh1 rh2 : RStr) :
    testPaymentFlow apiUrl a1 rh1 env = testPaymentFlow apiUrl a2 rh2 env ∧
    (∀ reqs, buildPaymentPayload reqs =
      ⟨2, reqs, ⟨base64Encode (List.replicate 64 0),
                 base64Encode (List.replicate 64 0)⟩⟩) :=
  ⟨rfl, fun _ => rfl⟩

/-- C10: every accepted connection is answered with HTTP 200; the response
depends only on the first request line, never on the body; every POST
(that is not a health probe) gets the one fixed success JSON; and that
JSON has no `isValid` and no `success` field. -/
theorem c10_transport_canned (line url ts : RStr) (input1 input2 : List RStr) :
    startsWithSeq (codes "HTTP/1.1 200 OK") (handleConnection line url ts) = true ∧
    (input1.headD [] = input2.headD [] →
      handleConnectionInput input1 url ts = handleConnectionInput input2 url ts) ∧
    (strContains (codes "GET /health") (rstrTrim line) = false →
      strContains (codes "POST") (rstrTrim line) = true →
      handleConnection line url ts = httpOkJson (postBody url)) ∧
    strContains (codes "\"isValid\"") (postBody facilitatorUrl) = false ∧
    strContains (codes "\"success\":") (postBody facilitatorUrl) = false := by
  refine ⟨?_, ?_, ?_, by decide, by decide⟩
  · rw [handleConnection]
    split
    · exact rfl
    · split
      · exact rfl
      · exact rfl
  · intro h
    rw [handleConnectionInput, handleConnectionInput, h]
  · intro h1 h2
    rw [handleConnection]
    simp only [h1, h2]
    simp

/-- C10 witness: a concrete POST connection. -/
theorem c10_transport_canned_witness :
    handleConnectionInput
        [codes "POST /verify HTTP/1.1", codes "ignored body one"]
        facilitatorUrl (codes "2026-10-12 00:00:00") =
      handleConnectionInput
        [codes "POST /verify HTTP/1.1", codes "another ignored body"]
        facilitatorUrl (codes "2026-10-12 00:00:00") ∧
    handleConnection (codes "POST /verify HTTP/1.1") facilitatorUrl
        (codes "2026-10-12 00:00:00") =
      httpOkJson (postBody facilitatorUrl) :=
  ⟨(c10_transport_canned (codes "POST /verify HTTP/1.1") facilitatorUrl
      (codes "2026-10-12 00:00:00")
      [codes "POST /verify HTTP/1.1", codes "ignored body one"]
      [codes "POST /verify HTTP/1.1", codes "another ignored body"]).2.1 (by decide),
   (c10_transport_canned (codes "POST /verify HTTP/1.1") facilitatorUrl
      (codes "2026-10-12 00:00:00") [] []).2.2.1 (by decide) (by decide)⟩

/-- C2: in the probing state of the compiled `mod.rs` flow, a 2xx status
is the terminal “no payment required” success with no facilitator call
ever made; a status of exactly 402 continues the flow past the probe (the
payment path re-issues the request); and any other status stops at the
“Unexpected status code” outcome. -/
theorem c2_probe_three_way (apiUrl : RStr) (amount : Nat) (env : ModFlowEnv)
    (pr : HttpResp) (h1 : env.probe = some pr) :
    (is2xx pr.status = true →
      modTestPaymentFlow apiUrl amount env = ⟨.doneNoPayment, [.get apiUrl []]⟩ ∧
      ∀ u p q, Request.post u p q ∉ (modTestPaymentFlow apiUrl amount env).trace) ∧
    (is2xx pr.status = false → pr.status = 402 →
      (modTestPaymentFlow apiUrl amount env).trace =
        [.get apiUrl [],
         .get apiUrl [(codes "X-Payment-Token", codes "test-token-123")]] ∧
      (modTestPaymentFlow apiUrl amount env).outcome ≠ .doneNoPayment ∧
      ∀ s, (modTestPaymentFlow apiUrl amount env).outcome ≠ .unexpectedStatus s) ∧
    (is2xx pr.status = false → pr.status ≠ 402 →
      modTestPaymentFlow apiUrl amount env =
        ⟨.unexpectedStatus pr.status, [.get apiUrl []]⟩) := by
  refine ⟨?_, ?_, ?_⟩
  · intro h2
    have he : modTestPaymentFlow apiUrl amount env = ⟨.doneNoPayment, [.get apiUrl []]⟩ := by
      rw [modTestPaymentFlow, h1]
      simp only [h2, if_true]
    refine ⟨he, ?_⟩
    intro u p q hmem
    rw [he] at hmem
    simp at hmem
  · intro h2 h3
    have hif : ¬is2xx pr.status = true := by simp [h2]
    cases henv : env.second with
    | none =>
      have he : modTestPaymentFlow apiUrl amount env =
          ⟨.retryTransportError,
           [.get apiUrl [],
            .get apiUrl [(codes "X-Payment-Token", codes "test-token-123")]]⟩ := by
        rw [modTestPaymentFlow, h1]
        simp only []
        rw [if_neg hif, if_pos h3, henv]
      exact ⟨by rw [he], by rw [he]; simp, by intro s; rw [he]; simp⟩
    | some fr =>
      by_cases hfr : is2xx fr.status = true
      · have he : modTestPaymentFlow apiUrl amount env =
            ⟨.completed fr.body,
             [.get apiUrl [],
              .get apiUrl [(codes "X-Payment-Token", codes "test-token-123")]]⟩ := by
          rw [modTestPaymentFlow, h1]
          simp only []
          rw [if_neg hif, if_pos h3, henv]
          simp only [hfr, if_true]
        exact ⟨by rw [he], by rw [he]; simp, by intro s; rw [he]; simp⟩
      · have he : modTestPaymentFlow apiUrl amount env =
            ⟨.unexpectedFinalStatus fr.status,
             [.get apiUrl [],
              .get apiUrl [(codes "X-Payment-Token", codes "test-token-123")]]⟩ := by
          rw [modTestPaymentFlow, h1]
          simp only []
          rw [if_neg hif, if_pos h3, henv]
          simp only [Bool.not_eq_true] at hfr
          simp [hfr]
        exact ⟨by rw [he], by rw [he]; simp, by intro s; rw [he]; simp⟩
  · intro h2 h3
    have hif : ¬is2xx pr.status = true := by simp [h2]
    rw [modTestPaymentFlow, h1]
    simp only []
    rw [if_neg hif, if_neg h3]
theorem c2_probe_three_way_witness :
    modTestPaymentFlow (codes "/a") 7 ⟨some ⟨200, [], []⟩, none⟩ =
      ⟨.doneNoPayment, [.get (codes "/a") []]⟩ ∧
    modTestPaymentFlow (codes "/a") 7 ⟨some ⟨500, [], []⟩, none⟩ =
      ⟨.unexpectedStatus 500, [.get (codes "/a") []]⟩ :=
  ⟨((c2_probe_three_way (codes "/a") 7 ⟨some ⟨200, [], []⟩, none⟩ ⟨200, [], []⟩ rfl).1
      (by decide)).1,
   (c2_probe_three_way (codes "/a") 7 ⟨some ⟨500, [], []⟩, none⟩ ⟨500, [], []⟩ rfl).2.2
      (by decide) (by decide)⟩
/-- C4: on the happy path (probe answers 402 with a decodable
`PAYMENT-REQUIRED` header, verify answers 2xx with `isValid = true`,
settle answers 2xx with `success = true`, and the retried request gets a
response), the flow makes exactly four HTTP calls in the order probe,
verify, settle, retry, and the retry carries the header
`PAYMENT-SIGNATURE` whose value is the base64-encoded JSON serialization
of the `PaymentPayload`. -/
theorem c4_happy_path_four_calls (apiUrl : RStr) (amount : Nat) (rh : RStr)
    (env : FlowEnv) (pr vr sr fr : HttpResp) (hv : List Nat) (hs : RStr)
    (reqs : PaymentRequirements) (v : VerifyResponse) (st : SettleResponse)
    (h1 : env.probe = some pr) (h2 : pr.status = 402)
    (h3 : headerGet (codes "PAYMENT-REQUIRED") pr.headers = some hv)
    (h4 : headerToStr hv = some hs)
    (h5 : decodeRequirementsHeader hs = .ok reqs)
    (h6 : env.verify = some vr) (h7 : is2xx vr.status = true)
    (h8 : ((utf8Decode vr.body).bind jsonParse).bind verifyRespFromJson = some v)
    (h9 : v.isValid = true)
    (h10 : env.settle = some sr) (h11 : is2xx sr.status = true)
    (h12 : ((utf8Decode sr.body).bind jsonParse).bind settleRespFromJson = some st)
    (h13 : st.success = true)
    (h14 : env.retry = some fr) :
    testPaymentFlow apiUrl amount rh env =
      ⟨.done fr.status st.transaction st.payer,
       [.get apiUrl [],
        .post verifyUrl (buildPaymentPayload reqs) reqs,
        .post settleUrl (buildPaymentPayload reqs) reqs,
        .get apiUrl
          [(codes "PAYMENT-SIGNATURE",
            base64Encode (utf8Encode
              (jsonPrint (paymentPayloadToJson (buildPaymentPayload reqs)))))]]⟩ := by
  rw [testPaymentFlow, h1]
  simp only [h2, h3, h4, h5, h6, h7, h8, h9, h10, h11, h12, h13, h14,
    verifyRequestBody, encodePayloadHeader, Bool.not_true, Bool.false_eq_true,
    if_false, ite_not, if_true, ne_eq]
set_option maxRecDepth 100000 in
theorem c4_happy_path_four_calls_witness :
    testPaymentFlow (codes "http://localhost:3000/premium") 1000 (codes "abc") sampleEnv =
      ⟨.done 200 (codes "0xdead") (codes "0xpayer"),
       [.get (codes "http://localhost:3000/premium") [],
        .post verifyUrl (buildPaymentPayload sampleRequirements) sampleRequirements,
        .post settleUrl (buildPaymentPayload sampleRequirements) sampleRequirements,
        .get (codes "http://localhost:3000/premium")
          [(codes "PAYMENT-SIGNATURE",
            base64Encode (utf8Encode
              (jsonPrint (paymentPayloadToJson (buildPaymentPayload sampleRequirements)))))]]⟩ :=
  c4_happy_path_four_calls _ _ _ sampleEnv sampleProbeResp
    ⟨200, [], sampleVerifyOkBody⟩ ⟨200, [], sampleSettleOkBody⟩ ⟨200, [], []⟩
    (encodeRequirementsHeader sampleRequirements)
    (encodeRequirementsHeader sampleRequirements)
    sampleRequirements ⟨true, none, none⟩
    ⟨true, codes "0xdead", codes "testnet", codes "0xpayer"⟩
    rfl rfl (by decide) (by decide) (by decide) rfl rfl (by decide) rfl rfl rfl
    (by decide) rfl rfl
/-- C5: the flow settles a payload only after a verify call for that very
payload answered `isValid = true`: any `/settle` POST in the trace is for
the payload and requirements of the (earlier) `/verify` POST, and the
environment's verify response parsed to `isValid = true`.  And when verify
parses to `isValid = false`, the run ends in the `paymentInvalid` failure
having sent only the probe and the `/verify` POST — no `/settle` call and
no retry. -/
theorem c5_settle_requires_valid_verify (apiUrl : RStr) (amount : Nat)
    (rh : RStr) (env : FlowEnv) :
    (∀ p reqs,
      Request.post settleUrl p reqs ∈ (testPaymentFlow apiUrl amount rh env).trace →
      ∃ vr v, env.verify = some vr ∧ is2xx vr.status = true ∧
        ((utf8Decode vr.body).bind jsonParse).bind verifyRespFromJson = some v ∧
        v.isValid = true ∧
        Request.post verifyUrl p reqs ∈ (testPaymentFlow apiUrl amount rh env).trace) ∧
    (∀ pr hv hs reqs vr v,
      env.probe = some pr → pr.status = 402 →
      headerGet (codes "PAYMENT-REQUIRED") pr.headers = some hv →
      headerToStr hv = some hs →
      decodeRequirementsHeader hs = .ok reqs →
      env.verify = some vr → is2xx vr.status = true →
      ((utf8Decode vr.body).bind jsonParse).bind verifyRespFromJson = some v →
      v.isValid = false →
      testPaymentFlow apiUrl amount rh env =
        ⟨.paymentInvalid (v.invalidReason.getD (codes "Unknown")),
         [.get apiUrl [], .post verifyUrl (buildPaymentPayload reqs) reqs]⟩) := by
  have hne : settleUrl ≠ verifyUrl := by decide
  constructor
  · intro p reqs hmem
    cases hpr : env.probe with
    | none =>
      rw [testPaymentFlow, hpr] at hmem
      simp at hmem
    | some pr =>
      by_cases h402 : pr.status = 402
      · cases hhd : headerGet (codes "PAYMENT-REQUIRED") pr.headers with
        | none =>
          rw [testPaymentFlow, hpr] at hmem
          simp [h402, hhd] at hmem
        | some hv =>
          cases hts : headerToStr hv with
          | none =>
            rw [testPaymentFlow, hpr] at hmem
            simp [h402, hhd, hts] at hmem
          | some hs =>
            cases hdec : decodeRequirementsHeader hs with
            | error e =>
              rw [testPaymentFlow, hpr] at hmem
              simp [h402, hhd, hts, hdec] at hmem
            | ok reqs0 =>
              cases hvr : env.verify with
              | none =>
                rw [testPaymentFlow, hpr] at hmem
                simp [h402, hhd, hts, hdec, hvr, verifyRequestBody, hne] at hmem
              | some vr =>
                cases hs2 : is2xx vr.status with
                | false =>
                  rw [testPaymentFlow, hpr] at hmem
                  simp [h402, hhd, hts, hdec, hvr, hs2, verifyRequestBody, hne] at hmem
                | true =>
                  cases hpv : ((utf8Decode vr.body).bind jsonParse).bind verifyRespFromJson with
                  | none =>
                    rw [testPaymentFlow, hpr] at hmem
                    simp [h402, hhd, hts, hdec, hvr, hs2, hpv, verifyRequestBody, hne] at hmem
                  | some v =>
                    cases hval : v.isValid with
                    | false =>
                      rw [testPaymentFlow, hpr] at hmem
                      simp [h402, hhd, hts, hdec, hvr, hs2, hpv, hval,
                        verifyRequestBody, hne] at hmem
                    | true =>
                      refine ⟨vr, v, rfl, hs2, hpv, hval, ?_⟩
                      cases hst : env.settle with
                      | none =>
                        have ht : (testPaymentFlow apiUrl amount rh env).trace =
                            [.get apiUrl [],
                             .post verifyUrl (buildPaymentPayload reqs0) reqs0,
                             .post settleUrl (buildPaymentPayload reqs0) reqs0] := by
                          rw [testPaymentFlow, hpr]
                          simp [h402, hhd, hts, hdec, hvr, hs2, hpv, hval, hst,
                            verifyRequestBody]
                        rw [ht] at hmem ⊢
                        simp [hne] at hmem
                        simp [hmem.1, hmem.2]
                      | some sr =>
                        cases hs3 : is2xx sr.status with
                        | false =>
                          have ht : (testPaymentFlow apiUrl amount rh env).trace =
                              [.get apiUrl [],
                               .post verifyUrl (buildPaymentPayload reqs0) reqs0,
                               .post settleUrl (buildPaymentPayload reqs0) reqs0] := by
                            rw [testPaymentFlow, hpr]
                            simp [h402, hhd, hts, hdec, hvr, hs2, hpv, hval, hst, hs3,
                              verifyRequestBody]
                          rw [ht] at hmem ⊢
                          simp [hne] at hmem
                          simp [hmem.1, hmem.2]
                        | true =>
                          cases hps : ((utf8Decode sr.body).bind jsonParse).bind
                              settleRespFromJson with
                          | none =>
                            have ht : (testPaymentFlow apiUrl amount rh env).trace =
                                [.get apiUrl [],
                                 .post verifyUrl (buildPaymentPayload reqs0) reqs0,
                                 .post settleUrl (buildPaymentPayload reqs0) reqs0] := by
                              rw [testPaymentFlow, hpr]
                              simp [h402, hhd, hts, hdec, hvr, hs2, hpv, hval, hst, hs3,
                                hps, verifyRequestBody]
                            rw [ht] at hmem ⊢
                            simp [hne] at hmem
                            simp [hmem.1, hmem.2]
                          | some st =>
                            cases hsu : st.success with
                            | false =>
                              have ht : (testPaymentFlow apiUrl amount rh env).trace =
                                  [.get apiUrl [],
                                   .post verifyUrl (buildPaymentPayload reqs0) reqs0,
                                   .post settleUrl (buildPaymentPayload reqs0) reqs0] := by
                                rw [testPaymentFlow, hpr]
                                simp [h402, hhd, hts, hdec, hvr, hs2, hpv, hval, hst,
                                  hs3, hps, hsu, verifyRequestBody]
                              rw [ht] at hmem ⊢
                              simp [hne] at hmem
                              simp [hmem.1, hmem.2]
                            | true =>
                              have ht : (testPaymentFlow apiUrl amount rh env).trace =
                                  [.get apiUrl [],
                                   .post verifyUrl (buildPaymentPayload reqs0) reqs0,
                                   .post settleUrl (buildPaymentPayload reqs0) reqs0,
                                   .get apiUrl
                                     [(codes "PAYMENT-SIGNATURE",
                                       encodePayloadHeader (buildPaymentPayload reqs0))]] := by
                                rw [testPaymentFlow, hpr]
                                cases hrt : env.retry with
                                | none =>
                                  simp [h402, hhd, hts, hdec, hvr, hs2, hpv, hval, hst,
                                    hs3, hps, hsu, hrt, verifyRequestBody]
                                | some fr =>
                                  simp [h402, hhd, hts, hdec, hvr, hs2, hpv, hval, hst,
                                    hs3, hps, hsu, hrt, verifyRequestBody]
                              rw [ht] at hmem ⊢
                              simp [hne] at hmem
                              simp [hmem.1, hmem.2]
      · rw [testPaymentFlow, hpr] at hmem
        simp [h402] at hmem
  · intro pr hv hs reqs vr v h1 h2 h3 h4 h5 h6 h7 h8 h9
    rw [testPaymentFlow, h1]
    simp only [h2, h3, h4, h5, h6, h7, h8, h9, verifyRequestBody, Bool.not_true,
      Bool.not_false, Bool.false_eq_true, if_false, if_true, ne_eq, not_true_eq_false,
      ite_false]
set_option maxRecDepth 100000 in
theorem c5_settle_requires_valid_verify_witness :
    testPaymentFlow (codes "/a") 1000 (codes "h") sampleEnvInvalid =
      ⟨.paymentInvalid (codes "insufficient-funds"),
       [.get (codes "/a") [],
        .post verifyUrl (buildPaymentPayload sampleRequirements) sampleRequirements]⟩ :=
  (c5_settle_requires_valid_verify (codes "/a") 1000 (codes "h") sampleEnvInvalid).2
    sampleProbeResp (encodeRequirementsHeader sampleRequirements)
    (encodeRequirementsHeader sampleRequirements) sampleRequirements
    ⟨200, [], sampleVerifyInvalidBody⟩
    ⟨false, some (codes "insufficient-funds"), none⟩
    rfl rfl (by decide) (by decide) (by decide) rfl rfl (by decide) rfl
/-- C6: a 402 probe response without the `PAYMENT-REQUIRED` header ends the
flow in the missing-header failure after the probe alone — in particular
zero facilitator calls (no POST request of any kind is in the trace). -/
theorem c6_missing_header_no_facilitator (apiUrl : RStr) (amount : Nat)
    (rh : RStr) (env : FlowEnv) (pr : HttpResp)
    (h1 : env.probe = some pr) (h2 : pr.status = 402)
    (h3 : headerGet (codes "PAYMENT-REQUIRED") pr.headers = none) :
    testPaymentFlow apiUrl amount rh env =
      ⟨.missingPaymentRequiredHeader, [.get apiUrl []]⟩ ∧
    ∀ u p q, Request.post u p q ∉ (testPaymentFlow apiUrl amount rh env).trace := by
  have he : testPaymentFlow apiUrl amount rh env =
      ⟨.missingPaymentRequiredHeader, [.get apiUrl []]⟩ := by
    rw [testPaymentFlow, h1]
    simp only [h2, h3, ne_eq, not_true_eq_false, if_false, ite_false]
  refine ⟨he, ?_⟩
  intro u p q hmem
  rw [he] at hmem
  simp at hmem

theorem c6_missing_header_no_facilitator_witness :
    testPaymentFlow (codes "/a") 1000 (codes "h") sampleEnvNoHeader =
      ⟨.missingPaymentRequiredHeader, [.get (codes "/a") []]⟩ ∧
    ∀ u p q,
      Request.post u p q ∉ (testPaymentFlow (codes "/a") 1000 (codes "h") sampleEnvNoHeader).trace :=
  c6_missing_header_no_facilitator (codes "/a") 1000 (codes "h") sampleEnvNoHeader
    ⟨402, [], []⟩ rfl rfl rfl
/-- C7: header decoding fails with exactly the stage-determined error kind —
`malformedHeader` when base64 decoding fails, `invalidUtf8` when the decoded
bytes are not valid UTF-8, `schemaError` when the text does not parse as
JSON or the JSON does not match the `PaymentRequirements` shape — and any
such failure is terminal for the flow attempt: the run ends at
`decodeFailed` right after the probe, no further request issued. -/
theorem c7_decode_error_taxonomy (h : RStr) :
    (base64Decode h = none → decodeRequirementsHeader h = .error .malformedHeader) ∧
    (∀ bytes, base64Decode h = some bytes → utf8Decode bytes = none →
      decodeRequirementsHeader h = .error .invalidUtf8) ∧
    (∀ bytes s, base64Decode h = some bytes → utf8Decode bytes = some s →
      jsonParse s = none → decodeRequirementsHeader h = .error .schemaError) ∧
    (∀ bytes s j, base64Decode h = some bytes → utf8Decode bytes = some s →
      jsonParse s = some j → reqFromJson j = none →
      decodeRequirementsHeader h = .error .schemaError) ∧
    (∀ e apiUrl amount rh env pr hvv,
      env.probe = some pr → pr.status = 402 →
      headerGet (codes "PAYMENT-REQUIRED") pr.headers = some hvv →
      headerToStr hvv = some h →
      decodeRequirementsHeader h = .error e →
      testPaymentFlow apiUrl amount rh env = ⟨.decodeFailed e, [.get apiUrl []]⟩) := by
  refine ⟨?_, ?_, ?_, ?_, ?_⟩
  · intro hb
    rw [decodeRequirementsHeader, hb]
  · intro bytes hb hu
    rw [decodeRequirementsHeader, hb]
    simp only [hu]
  · intro bytes s hb hu hj
    rw [decodeRequirementsHeader, hb]
    simp only [hu, hj]
  · intro bytes s j hb hu hj hr
    rw [decodeRequirementsHeader, hb]
    simp only [hu, hj, hr]
  · intro e apiUrl amount rh env pr hvv h1 h2 h3 h4 h5
    rw [testPaymentFlow, h1]
    simp only [h2, h3, h4, h5, ne_eq, not_true_eq_false, if_false, ite_false]

set_option maxRecDepth 8000 in
theorem c7_decode_error_taxonomy_witness :
    decodeRequirementsHeader (codes "!!!") = .error .malformedHeader ∧
    decodeRequirementsHeader (base64Encode [255, 254]) = .error .invalidUtf8 ∧
    decodeRequirementsHeader (base64Encode (utf8Encode (codes "[]"))) =
      .error .schemaError :=
  ⟨(c7_decode_error_taxonomy (codes "!!!")).1 (by decide),
   (c7_decode_error_taxonomy (base64Encode [255, 254])).2.1 [255, 254]
     (by decide) (by decide),
   (c7_decode_error_taxonomy (base64Encode (utf8Encode (codes "[]")))).2.2.2.1
     (utf8Encode (codes "[]")) (codes "[]") (.arr [])
     (by decide) (by decide) rfl rfl⟩
set_option maxRecDepth 100000 in
/-- C3 counterexample: for the sample terms with `extra` absent, decoding
the encoded header does not give the value back — serde's flattened
`Option<Extra>` deserializes to `Some`, so the decoder returns the terms
with `extra = some ⟨none⟩`, a different value. -/
theorem c3_roundtrip_counterexample :
    decodeRequirementsHeader (encodeRequirementsHeader sampleRequirementsNoExtra) =
      .ok sampleRequirements ∧
    sampleRequirements ≠ sampleRequirementsNoExtra :=
  ⟨by decide, by decide⟩

/-- C3 (amended): decoding an encoded well-formed `PaymentRequirements`
yields the value up to `extra` normalization (`none` comes back as
`some ⟨none⟩`), and likewise for `PaymentPayload` headers through the
`accepted.extra` field; whenever `extra` is present the round trip is the
identity claimed. -/
theorem c3_roundtrip_amended (r : PaymentRequirements) (p : PaymentPayload)
    (hr : ReqWF r) (hp : PaymentPayloadWF p) :
    decodeRequirementsHeader (encodeRequirementsHeader r) = .ok (reqNormalize r) ∧
    decodePayloadHeader (encodePayloadHeader p) = .ok (paymentPayloadNormalize p) ∧
    (r.extra ≠ none → reqNormalize r = r) ∧
    (p.accepted.extra ≠ none → paymentPayloadNormalize p = p) := by
  have hex : ∀ o : Option Extra, o ≠ none → extraNormalize o = o := by
    intro o ho
    cases o with
    | none => exact absurd rfl ho
    | some e => rfl
  refine ⟨decodeRequirementsHeader_encode r hr, decodePayloadHeader_encode p hp, ?_, ?_⟩
  · intro h
    rw [reqNormalize, hex _ h]
  · intro h
    rw [paymentPayloadNormalize, reqNormalize, hex _ h]

set_option maxRecDepth 100000 in
theorem c3_roundtrip_amended_witness :
    decodeRequirementsHeader (encodeRequirementsHeader sampleRequirements) =
      .ok sampleRequirements ∧
    decodePayloadHeader (encodePayloadHeader (buildPaymentPayload sampleRequirements)) =
      .ok (buildPaymentPayload sampleRequirements) := by
  have h := c3_roundtrip_amended sampleRequirements
    (buildPaymentPayload sampleRequirements) (by decide) (by decide)
  refine ⟨?_, ?_⟩
  · rw [h.1, h.2.2.1 (by decide)]
  · rw [h.2.1, h.2.2.2 (by decide)]
